import Mathlib

/-!
# Verification of the OSPool one-year report aggregation engine

This development is a shallow embedding of the monthly aggregation and
entity-reconciliation engine of `email_1yr_ospool_report.py`:

* the time-window partitioner (`prev_month` / `get_timestamps`),
* the classification oracle (`is_r1_institution`),
* the per-window bucket resolution and set accumulation (`get_monthly_docs`),
* the derived union / intersection / ratio metrics.

Python strings are modelled through their character lists (`String.data`),
`str.lower` as a character-wise `Char.toLower` map (the keys and names in
scope are ASCII), dictionaries as functions into `Option`, Python sets as
`Finset String`, and Python numbers (ints and the float sums coming from the
aggregation queries) as `ℚ`.  The reference directories (resource, project and
institution tables, loaded from the network in `functions.py`) are parameters
of the embedding, as is the per-window query output.
-/

/-- Models Python `s.lower()` as a character-wise map (ASCII semantics). -/
def lower (s : String) : String := ⟨s.data.map Char.toLower⟩

/-- Models Python `c in s` for a single character `c`. -/
def containsChar (s : String) (c : Char) : Bool := s.data.contains c

/-- Models Python `s.split(sep, maxsplit=1)[0]` for the single-character
separator `sep`: the prefix of `s` before the first occurrence of `c`
(all of `s` when `c` does not occur). -/
def splitFirst (s : String) (c : Char) : String :=
  ⟨s.data.takeWhile (fun a => a ≠ c)⟩

/-- Models Python `s.split(sep)[-1]` for a single-character separator: the
suffix of `s` after the last occurrence of `c` (all of `s` when `c` does not
occur). -/
def splitLast (s : String) (c : Char) : String :=
  ⟨(s.data.reverse.takeWhile (fun a => a ≠ c)).reverse⟩

/-- Models Python `pat in s` (substring containment) for nonempty `pat`. -/
def containsSubstr (s pat : String) : Bool := decide (pat.data <:+: s.data)

/-! ## Time-window partitioner (`get_timestamps` and its inner `prev_month`) -/

/-- A calendar date as the `datetime(year, month, day)` triples manipulated by
`get_timestamps` (all times are midnight). -/
structure Date where
  year : Nat
  month : Nat
  day : Nat
deriving DecidableEq, Repr

/-- The inner `prev_month(dt, end_day)` of `get_timestamps`: decrement the
month (wrapping the year at January), then clip the day to 30 for September,
April, June and November and to 28 for February whenever the current day
exceeds the target month's length, otherwise reset the day to `end_day`
(the anchor day of "now"). -/
def prev_month (dt : Date) (end_day : Nat) : Date :=
  let year := if dt.month = 1 then dt.year - 1 else dt.year
  let month := if dt.month = 1 then 12 else dt.month - 1
  let day :=
    if (month = 9 ∨ month = 4 ∨ month = 6 ∨ month = 11) ∧ dt.day > 30 then 30
    else if month = 2 ∧ dt.day > 28 then 28
    else end_day
  ⟨year, month, day⟩

/-- Gregorian leap-year test, as in Python's `datetime` module. -/
def isLeapYear (y : Nat) : Bool := y % 4 = 0 && (y % 100 != 0 || y % 400 = 0)

/-- Days before the first of month `m` in a year (`leap` true for leap years). -/
def daysBeforeMonth (leap : Bool) (m : Nat) : Nat :=
  (match m with
   | 1 => 0 | 2 => 31 | 3 => 59 | 4 => 90 | 5 => 120 | 6 => 151
   | 7 => 181 | 8 => 212 | 9 => 243 | 10 => 273 | 11 => 304 | 12 => 334
   | _ => 365)
  + (if leap ∧ m > 2 then 1 else 0)

/-- The proleptic Gregorian ordinal of a date, exactly Python's
`date.toordinal()`; midnight `datetime` comparison and `timedelta(days=n)`
subtraction reduce to arithmetic on this ordinal. -/
def toOrdinal (dt : Date) : Int :=
  let n := dt.year - 1
  365 * (n : Int) + ((n / 4 : Nat) : Int) - ((n / 100 : Nat) : Int)
    + ((n / 400 : Nat) : Int)
    + (daysBeforeMonth (isLeapYear dt.year) dt.month : Int) + (dt.day : Int)

/-- The `while dt_end > dt_stop` loop of `get_timestamps`, with explicit fuel.
Each iteration emits the window `(dt_start, dt_end)` (a half-open month
`[start, end)`) and continues from `dt_start`.  The source loop is unbounded;
the fuel passed by `get_timestamps` is shown sufficient for valid inputs
(each step moves the date back by at least one day). -/
def get_timestamps_aux (end_day : Nat) (stop : Int) : Nat → Date → List (Date × Date)
  | 0, _ => []
  | fuel + 1, dt_end =>
    if toOrdinal dt_end > stop then
      let dt_start := prev_month dt_end end_day
      (dt_start, dt_end) :: get_timestamps_aux end_day stop fuel dt_start
    else []

/-- `get_timestamps`, parameterised by the `NOW` date and `DAYS` constant of
the source: the newest-first list of month windows covering the trailing
`days` days.  `stop` is `dt_end - timedelta(days=DAYS)` as an ordinal. -/
def get_timestamps (now : Date) (days : Nat) : List (Date × Date) :=
  get_timestamps_aux now.day (toOrdinal now - days) (days + 1) now

/-! ## Reference directories and the classification oracle -/

/-- The `carnegie_metadata` sub-record of an institution record; a field is
`none` when the corresponding key is missing. -/
structure Carnegie where
  classification2021 : Option String
  classification2025 : Option String
deriving DecidableEq

/-- A record of the institution database (`INSTITUTION_DB`); optional fields
are read with `.get` defaults in the source. -/
structure InstitutionRec where
  name : Option String
  id : Option String
  carnegie_metadata : Option Carnegie
deriving DecidableEq

/-- A record of the topology resource table (`RESOURCE_DATA`). -/
structure ResourceRec where
  institution : Option String
  institution_id : Option String
deriving DecidableEq

/-- A record of the topology project table (`PROJECT_DATA`).  `institution` is
indexed directly (`project_info["institution"]`) and so is a required field;
`institution_id` is read with `.get` and may be absent. -/
structure ProjectRec where
  institution : String
  institution_id : Option String
deriving DecidableEq

/-- The three reference directories consumed by the engine, as key lookups
(Python dict `.get`).  Their contents are loaded from the network by
`functions.py` and are parameters of the embedding. -/
structure Env where
  RESOURCE_DATA : String → Option ResourceRec
  PROJECT_DATA : String → Option ProjectRec
  INSTITUTION_DB : String → Option InstitutionRec

/-- The Carnegie R1 tier string tested by `is_r1_institution`. -/
def r1_research_activity : String :=
  "Research 1: Very High Spending and Doctorate Production"

/-- `is_r1_institution`: returns `some` of the R1 test only when the id is
nonempty, present in the database, and its record has Carnegie metadata with
at least one of the two classification keys; otherwise falls through and
returns `none` (Python `None`).  The `lru_cache` memoisation and diagnostic
prints of the source are pure-behaviour-preserving and are not modelled. -/
def is_r1_institution (env : Env) (institution_id : String) : Option Bool :=
  if institution_id = "" then none
  else
    match env.INSTITUTION_DB institution_id with
    | none => none
    | some rec =>
      match rec.carnegie_metadata with
      | none => none
      | some cm =>
        if cm.classification2021 = none ∧ cm.classification2025 = none then none
        else some (cm.classification2025 = some r1_research_activity)

/-! ## Aggregation engine (`get_monthly_docs`) -/

/-- One term-aggregation bucket returned by the raw-data query:
`{key, doc_count, last_seen}`.  `last_seen` is `none` when the bucket carries
no such sub-aggregation (the source reads it as
`bucket.get("last_seen", {"value": 0})["value"]`). -/
structure Bucket where
  key : String
  doc_count : Nat
  last_seen : Option Int
deriving DecidableEq

/-- The scalar sums and categorical bucket lists the two per-window queries
deliver for one window (its `date` is the window-start date string). -/
structure WindowData where
  date : String
  total_jobs : ℚ
  core_hours : ℚ
  files_transferred : ℚ
  osdf_files_transferred : ℚ
  users_buckets : List Bucket
  projects_buckets : List Bucket
  resources_buckets : List Bucket
  resource_ids_buckets : List Bucket

/-- The six entity sets kept both per window (`raw_datasets`) and for the
whole run (`total_datasets`). -/
structure Datasets where
  users : Finset String
  projects : Finset String
  institutions_contrib : Finset String
  institutions_benefit : Finset String
  non_r1_institutions_contrib : Finset String
  non_r1_institutions_benefit : Finset String
deriving DecidableEq

/-- All six sets empty. -/
def emptyDatasets : Datasets := ⟨∅, ∅, ∅, ∅, ∅, ∅⟩

/-- A Python dict with string keys and integer timestamp values. -/
def TsDict := String → Option Int

/-- Dict assignment `m[k] = v`. -/
def dictSet (m : TsDict) (k : String) (v : Int) : TsDict :=
  fun x => if x = k then some v else m x

/-- The empty dict. -/
def emptyDict : TsDict := fun _ => none

/-- The run-wide mutable state of `get_monthly_docs`: the running
`total_datasets` sets, the two unmapped-record dicts with their "undefined"
watermarks, and the accumulating fields of `docs["TOTAL"]` (whose sums and
counters are Python floats, initialised `0.`). -/
structure RunState where
  tot : Datasets
  unmapped_resources : TsDict
  undefined_resources_last_seen : Int
  unmapped_projects : TsDict
  undefined_projects_last_seen : Int
  total_jobs : ℚ
  core_hours : ℚ
  files_transferred : ℚ
  osdf_files_transferred : ℚ
  tot_unmapped_projects : ℚ
  tot_unmapped_institutions : ℚ

/-- The initial run state (`INIT` in the spec's state machine). -/
def initRunState : RunState :=
  ⟨emptyDatasets, emptyDict, 0, emptyDict, 0, 0, 0, 0, 0, 0, 0⟩

/-- The state threaded through one window's bucket loops: the window's local
`raw_datasets`, the run state, and the window document's two unmapped
counters (initialised to 0 for each window). -/
structure WinAcc where
  raw : Datasets
  st : RunState
  win_unmapped_projects : Nat
  win_unmapped_institutions : Nat

/-- Insert into both the window-local and the run-total `users` sets
(the paired adds of lines such as
`raw_datasets[...].add(value); total_datasets[...].add(value)`). -/
def addBothUsers (v : String) (a : WinAcc) : WinAcc :=
  { a with raw := { a.raw with users := insert v a.raw.users },
           st := { a.st with tot := { a.st.tot with users := insert v a.st.tot.users } } }

/-- Insert into both `projects` sets. -/
def addBothProjects (v : String) (a : WinAcc) : WinAcc :=
  { a with raw := { a.raw with projects := insert v a.raw.projects },
           st := { a.st with tot := { a.st.tot with projects := insert v a.st.tot.projects } } }

/-- Insert into both `institutions_contrib` sets. -/
def addBothContrib (v : String) (a : WinAcc) : WinAcc :=
  { a with raw := { a.raw with institutions_contrib := insert v a.raw.institutions_contrib },
           st := { a.st with tot := { a.st.tot with institutions_contrib := insert v a.st.tot.institutions_contrib } } }

/-- Insert into both `institutions_benefit` sets. -/
def addBothBenefit (v : String) (a : WinAcc) : WinAcc :=
  { a with raw := { a.raw with institutions_benefit := insert v a.raw.institutions_benefit },
           st := { a.st with tot := { a.st.tot with institutions_benefit := insert v a.st.tot.institutions_benefit } } }

/-- Insert into both `non_r1_institutions_contrib` sets. -/
def addBothNonR1Contrib (v : String) (a : WinAcc) : WinAcc :=
  { a with raw := { a.raw with non_r1_institutions_contrib := insert v a.raw.non_r1_institutions_contrib },
           st := { a.st with tot := { a.st.tot with non_r1_institutions_contrib := insert v a.st.tot.non_r1_institutions_contrib } } }

/-- Insert into both `non_r1_institutions_benefit` sets. -/
def addBothNonR1Benefit (v : String) (a : WinAcc) : WinAcc :=
  { a with raw := { a.raw with non_r1_institutions_benefit := insert v a.raw.non_r1_institutions_benefit },
           st := { a.st with tot := { a.st.tot with non_r1_institutions_benefit := insert v a.st.tot.non_r1_institutions_benefit } } }

/-- The user-category resolution (lines of the `users` bucket loop): strip any
domain suffix after the first `@` (`bucket["key"].split("@", maxsplit=1)[0]`)
and case-fold; a key without `@` falls to the generic `value =
bucket["key"].lower()` branch. -/
def resolve_user (key : String) : String :=
  if containsChar key '@' then lower (splitFirst key '@') else lower key

/-- The sentinel filter of the common tail of the bucket loop:
`if value.lower() in {"", "unknown"}: continue`. -/
def is_sentinel (value : String) : Prop :=
  lower value = "" ∨ lower value = "unknown"

instance (value : String) : Decidable (is_sentinel value) := by
  unfold is_sentinel; infer_instance

/-- Processing of one bucket of the `users` terms aggregation: resolve the
key, then the common sentinel filter and the paired set adds. -/
def process_users_bucket (b : Bucket) (a : WinAcc) : WinAcc :=
  let value := resolve_user b.key
  if is_sentinel value then a else addBothUsers value a

/-- The value `bucket.get("last_seen", {"value": 0})["value"]`. -/
def bucketLastSeen (b : Bucket) : Int := b.last_seen.getD 0

/-- First phase of the `projects` bucket arm: with
`project = bucket["key"].lower()` and `project_info = PROJECT_DATA.get(project)`,
a mapped project adds its institution to both `institutions_benefit` sets. -/
def projects_benefit_step (env : Env) (b : Bucket) (a : WinAcc) : WinAcc :=
  match env.PROJECT_DATA (lower b.key) with
  | some pi => addBothBenefit pi.institution a
  | none => a

/-- Second phase of the `projects` bucket arm, the if/elif chain:

* the `"UNKNOWN"` sentinel key updates the undefined-projects watermark and
  adds `doc_count` to the window and TOTAL `unmapped_projects` counters;
* an unmapped project updates the `unmapped_projects` dict — the membership
  test uses the lowercased `project` while the initialisation and writes use
  the raw `bucket["key"]`; reading `unmapped_projects[bucket["key"]]` after a
  skipped initialisation raises `KeyError` in the source, modelled as `none` —
  and adds `doc_count` to the window and TOTAL `unmapped_institutions`
  counters;
* a mapped project whose institution id classifies as exactly `False` adds the
  institution to both `non_r1_institutions_benefit` sets. -/
def projects_mid_step (env : Env) (b : Bucket) (a1 : WinAcc) : Option WinAcc :=
  if b.key = "UNKNOWN" then
    some { a1 with
      st := { a1.st with
        undefined_projects_last_seen :=
          max a1.st.undefined_projects_last_seen (bucketLastSeen b),
        tot_unmapped_projects := a1.st.tot_unmapped_projects + b.doc_count },
      win_unmapped_projects := a1.win_unmapped_projects + b.doc_count }
  else if env.PROJECT_DATA (lower b.key) = none then
    let m0 := a1.st.unmapped_projects
    let m1 := if m0 (lower b.key) = none then dictSet m0 b.key 0 else m0
    match m1 b.key with
    | none => none
    | some cur =>
      some { a1 with
        st := { a1.st with
          unmapped_projects := dictSet m1 b.key (max cur (bucketLastSeen b)),
          tot_unmapped_institutions :=
            a1.st.tot_unmapped_institutions + b.doc_count },
        win_unmapped_institutions := a1.win_unmapped_institutions + b.doc_count }
  else
    match env.PROJECT_DATA (lower b.key) with
    | some pi =>
      match pi.institution_id with
      | some pid =>
        if is_r1_institution env pid = some false then
          some (addBothNonR1Benefit pi.institution a1)
        else some a1
      | none => some a1
    | none => some a1

/-- Final phase of the `projects` bucket arm: `value = project` flows into the
common sentinel filter and the paired `projects` set adds. -/
def projects_tail_step (b : Bucket) (a2 : WinAcc) : WinAcc :=
  if is_sentinel (lower b.key) then a2 else addBothProjects (lower b.key) a2

/-- Processing of one bucket of the `projects` terms aggregation
(the `elif bucket_name == "projects"` arm plus the common tail), as the three
phases in source order. -/
def process_projects_bucket (env : Env) (b : Bucket) (a : WinAcc) : Option WinAcc :=
  (projects_mid_step env b (projects_benefit_step env b a)).map
    (projects_tail_step b)

/-- The institution id consulted by the contributing-institutions arm:
for an explicit-id key (`"osg-htc.org_" in key`) the full key is looked up in
the institution database and its `id` field is read with default `""`;
otherwise the case-folded key is looked up in the resource table and its
`institution_id` field is read with default `""`. -/
def contrib_resource_id (env : Env) (key : String) : String :=
  if containsSubstr key "osg-htc.org_" then
    ((env.INSTITUTION_DB key).bind (fun r => r.id)).getD ""
  else
    ((env.RESOURCE_DATA (lower key)).bind (fun r => r.institution_id)).getD ""

/-- The institution name resolved by the contributing-institutions arm:
for an explicit-id key, the institution-database record of the trailing
`_`-separated token with its `name` read with default `"UNKNOWN"`; otherwise
the resource-table record of the case-folded key with its `institution` read
with default `"UNKNOWN"`. -/
def contrib_value (env : Env) (key : String) : String :=
  if containsSubstr key "osg-htc.org_" then
    ((env.INSTITUTION_DB (splitLast key '_')).bind (fun r => r.name)).getD "UNKNOWN"
  else
    ((env.RESOURCE_DATA (lower key)).bind (fun r => r.institution)).getD "UNKNOWN"

/-- The if/elif chain of the contributing-institutions bucket arm:

* an unresolved name (`contrib_value` fell to its `"UNKNOWN"` default) for a
  non-`"UNKNOWN"` key updates the `unmapped_resources` dict watermark
  (membership test and writes both use the raw key, so the read after
  initialisation always succeeds — modelled with a default that is never
  taken);
* the literal `"UNKNOWN"` key updates the undefined-resources watermark;
* otherwise the record's institution id is classified, and exactly a `False`
  result adds the name to both `non_r1_institutions_contrib` sets. -/
def contrib_main_step (env : Env) (b : Bucket) (a : WinAcc) : WinAcc :=
  if contrib_value env b.key = "UNKNOWN" ∧ b.key ≠ "UNKNOWN" then
    let m0 := a.st.unmapped_resources
    let m1 := if m0 b.key = none then dictSet m0 b.key 0 else m0
    let cur := (m1 b.key).getD 0
    { a with st := { a.st with
        unmapped_resources := dictSet m1 b.key (max cur (bucketLastSeen b)) } }
  else if b.key = "UNKNOWN" then
    { a with st := { a.st with
        undefined_resources_last_seen :=
          max a.st.undefined_resources_last_seen (bucketLastSeen b) } }
  else
    if is_r1_institution env (contrib_resource_id env b.key) = some false then
      addBothNonR1Contrib (contrib_value env b.key) a
    else a

/-- The common tail of the contributing-institutions bucket arm: the sentinel
filter and the paired `institutions_contrib` set adds. -/
def contrib_tail_step (env : Env) (b : Bucket) (a1 : WinAcc) : WinAcc :=
  if is_sentinel (contrib_value env b.key) then a1
  else addBothContrib (contrib_value env b.key) a1

/-- Processing of one bucket of the combined `resources` and `resource_ids`
aggregations (the `bucket_name == "institutions_contrib"` arm plus the common
tail): resolve the institution name (`contrib_value`), run the if/elif chain,
then the common tail. -/
def process_contrib_bucket (env : Env) (b : Bucket) (a : WinAcc) : WinAcc :=
  contrib_tail_step env b (contrib_main_step env b a)

/-- The `users` bucket loop. -/
def process_users_list : List Bucket → WinAcc → WinAcc
  | [], a => a
  | b :: bs, a => process_users_list bs (process_users_bucket b a)

/-- The `projects` bucket loop, propagating the possible `KeyError`. -/
def process_projects_list (env : Env) : List Bucket → WinAcc → Option WinAcc
  | [], a => some a
  | b :: bs, a =>
    match process_projects_bucket env b a with
    | none => none
    | some a2 => process_projects_list env bs a2

/-- The contributing-institutions bucket loop, over
`resources` buckets followed by `resource_ids` buckets. -/
def process_contrib_list (env : Env) : List Bucket → WinAcc → WinAcc
  | [], a => a
  | b :: bs, a => process_contrib_list env bs (process_contrib_bucket env b a)

/-- The ratio of the `fractions` table:
`docs[...][N] / max(docs[...][D], 1)`. -/
def fraction (n d : ℚ) : ℚ := n / max d 1

/-- One per-window document `docs[datestr]`: the scalar sums, the unmapped
counters, each category's set cardinality, and the derived set-algebra and
ratio metrics, all computed from that window's own sets and sums. -/
structure MonthlyDoc where
  date : String
  total_jobs : ℚ
  core_hours : ℚ
  files_transferred : ℚ
  osdf_files_transferred : ℚ
  unmapped_projects : Nat
  unmapped_institutions : Nat
  users : Nat
  projects : Nat
  institutions_contrib : Nat
  institutions_benefit : Nat
  non_r1_institutions_contrib : Nat
  non_r1_institutions_benefit : Nat
  institutions_intersect : Nat
  non_r1_institutions_intersect : Nat
  institutions_union : Nat
  non_r1_institutions_union : Nat
  file_transfers_per_job : ℚ
  pct_institutions_union_non_r1 : ℚ
  pct_institutions_intersect : ℚ
deriving DecidableEq

/-- The `docs["TOTAL"]` document: sums and unmapped counters accumulated as
floats, set cardinalities and derived metrics computed at finalisation from
the run-total sets. -/
structure TotalDoc where
  date : String
  total_jobs : ℚ
  core_hours : ℚ
  files_transferred : ℚ
  osdf_files_transferred : ℚ
  unmapped_projects : ℚ
  unmapped_institutions : ℚ
  users : Nat
  projects : Nat
  institutions_contrib : Nat
  institutions_benefit : Nat
  non_r1_institutions_contrib : Nat
  non_r1_institutions_benefit : Nat
  institutions_intersect : Nat
  non_r1_institutions_intersect : Nat
  institutions_union : Nat
  non_r1_institutions_union : Nat
  file_transfers_per_job : ℚ
  pct_institutions_union_non_r1 : ℚ
  pct_institutions_intersect : ℚ
deriving DecidableEq

/-- Builds the finished window document from the window data and the state
after the three bucket loops.  Each cardinality is taken right after its
bucket loop in the source; no later loop of the same window modifies an
earlier loop's sets, so reading them all from the final state is the same. -/
def mk_monthly_doc (w : WindowData) (a : WinAcc) : MonthlyDoc :=
  let inst_union := a.raw.institutions_contrib ∪ a.raw.institutions_benefit
  let non_r1_union :=
    a.raw.non_r1_institutions_contrib ∪ a.raw.non_r1_institutions_benefit
  { date := w.date
    total_jobs := w.total_jobs
    core_hours := w.core_hours
    files_transferred := w.files_transferred
    osdf_files_transferred := w.osdf_files_transferred
    unmapped_projects := a.win_unmapped_projects
    unmapped_institutions := a.win_unmapped_institutions
    users := a.raw.users.card
    projects := a.raw.projects.card
    institutions_contrib := a.raw.institutions_contrib.card
    institutions_benefit := a.raw.institutions_benefit.card
    non_r1_institutions_contrib := a.raw.non_r1_institutions_contrib.card
    non_r1_institutions_benefit := a.raw.non_r1_institutions_benefit.card
    institutions_intersect :=
      (a.raw.institutions_contrib ∩ a.raw.institutions_benefit).card
    non_r1_institutions_intersect :=
      (a.raw.non_r1_institutions_contrib ∩ a.raw.non_r1_institutions_benefit).card
    institutions_union := inst_union.card
    non_r1_institutions_union := non_r1_union.card
    file_transfers_per_job := fraction w.files_transferred w.total_jobs
    pct_institutions_union_non_r1 :=
      fraction (non_r1_union.card : ℚ) (inst_union.card : ℚ)
    pct_institutions_intersect :=
      fraction ((a.raw.institutions_contrib ∩ a.raw.institutions_benefit).card : ℚ)
        (inst_union.card : ℚ) }

/-- One iteration of the window loop: accumulate the scalar sums into the
TOTAL document, run the three bucket loops from empty `raw_datasets` and
zeroed window counters, and emit the window document together with the
window's final `raw_datasets` (kept explicit here because the run-level
properties compare the run totals with these per-window sets). -/
def process_window (env : Env) (st : RunState) (w : WindowData) :
    Option (MonthlyDoc × Datasets × RunState) :=
  let st1 := { st with
    total_jobs := st.total_jobs + w.total_jobs
    core_hours := st.core_hours + w.core_hours
    files_transferred := st.files_transferred + w.files_transferred
    osdf_files_transferred := st.osdf_files_transferred + w.osdf_files_transferred }
  let a0 : WinAcc := ⟨emptyDatasets, st1, 0, 0⟩
  let a1 := process_users_list w.users_buckets a0
  match process_projects_list env w.projects_buckets a1 with
  | none => none
  | some a2 =>
    let a3 := process_contrib_list env (w.resources_buckets ++ w.resource_ids_buckets) a2
    some (mk_monthly_doc w a3, a3.raw, a3.st)

/-- The window loop of `get_monthly_docs` over the ordered window list
(newest first), threading the run state. -/
def run_windows (env : Env) : List WindowData → RunState →
    Option (List (MonthlyDoc × Datasets) × RunState)
  | [], st => some ([], st)
  | w :: ws, st =>
    match process_window env st w with
    | none => none
    | some (doc, raw, st1) =>
      match run_windows env ws st1 with
      | none => none
      | some (rest, st2) => some ((doc, raw) :: rest, st2)

/-- The finalisation of `docs["TOTAL"]` after the window loop: set
cardinalities from the run-total sets, intersections and unions from those
same sets, and the ratio metrics from the TOTAL document's own fields. -/
def finalize_total (st : RunState) : TotalDoc :=
  let inst_union := st.tot.institutions_contrib ∪ st.tot.institutions_benefit
  let non_r1_union :=
    st.tot.non_r1_institutions_contrib ∪ st.tot.non_r1_institutions_benefit
  { date := "TOTAL"
    total_jobs := st.total_jobs
    core_hours := st.core_hours
    files_transferred := st.files_transferred
    osdf_files_transferred := st.osdf_files_transferred
    unmapped_projects := st.tot_unmapped_projects
    unmapped_institutions := st.tot_unmapped_institutions
    users := st.tot.users.card
    projects := st.tot.projects.card
    institutions_contrib := st.tot.institutions_contrib.card
    institutions_benefit := st.tot.institutions_benefit.card
    non_r1_institutions_contrib := st.tot.non_r1_institutions_contrib.card
    non_r1_institutions_benefit := st.tot.non_r1_institutions_benefit.card
    institutions_intersect :=
      (st.tot.institutions_contrib ∩ st.tot.institutions_benefit).card
    non_r1_institutions_intersect :=
      (st.tot.non_r1_institutions_contrib ∩ st.tot.non_r1_institutions_benefit).card
    institutions_union := inst_union.card
    non_r1_institutions_union := non_r1_union.card
    file_transfers_per_job := fraction st.files_transferred st.total_jobs
    pct_institutions_union_non_r1 :=
      fraction (non_r1_union.card : ℚ) (inst_union.card : ℚ)
    pct_institutions_intersect :=
      fraction ((st.tot.institutions_contrib ∩ st.tot.institutions_benefit).card : ℚ)
        (inst_union.card : ℚ) }

/-- `get_monthly_docs`, parameterised by the reference directories and the
per-window query responses for the windows of `get_timestamps` (newest
first).  Returns the window documents (each paired with its `raw_datasets`),
the TOTAL document and the final run state — or `none` when the source would
raise (the `KeyError` of the unmapped-projects bookkeeping), in which case no
report is emitted. -/
def get_monthly_docs (env : Env) (ws : List WindowData) :
    Option (List (MonthlyDoc × Datasets) × TotalDoc × RunState) :=
  match run_windows env ws initRunState with
  | none => none
  | some (docs, st) => some (docs, finalize_total st, st)

/-! ## Statement-level definitions -/

/-- Fieldwise union of a list of per-window dataset records, for comparing
the run totals with the per-window sets. -/
def unionDatasets : List Datasets → Datasets
  | [] => emptyDatasets
  | d :: ds =>
    let u := unionDatasets ds
    ⟨d.users ∪ u.users, d.projects ∪ u.projects,
     d.institutions_contrib ∪ u.institutions_contrib,
     d.institutions_benefit ∪ u.institutions_benefit,
     d.non_r1_institutions_contrib ∪ u.non_r1_institutions_contrib,
     d.non_r1_institutions_benefit ∪ u.non_r1_institutions_benefit⟩

/-- The day-of-month the spec prescribes for a generated window start in
month `m` with anchor day `anchor`: the anchor day, clipped to 30 for the
30-day months and to 28 for February, with no leap-year awareness. -/
def clipped_day (anchor m : Nat) : Nat :=
  if (m = 9 ∨ m = 4 ∨ m = 6 ∨ m = 11) ∧ anchor > 30 then 30
  else if m = 2 ∧ anchor > 28 then 28
  else anchor

/-- Invariant of every date reached by the window loop with anchor day
`anchor`: a calendar month, a positive day, and a day that is either the
anchor itself or the result of one of the two clips (in which case the month
is the clipped month and the anchor really exceeded the month's length). -/
def WindowInv (anchor : Nat) (dt : Date) : Prop :=
  1 ≤ dt.month ∧ dt.month ≤ 12 ∧ 1 ≤ dt.day ∧
  (dt.day = anchor ∨
    ((dt.month = 9 ∨ dt.month = 4 ∨ dt.month = 6 ∨ dt.month = 11) ∧
      dt.day = 30 ∧ anchor > 30) ∨
    (dt.month = 2 ∧ dt.day = 28 ∧ anchor > 28))

/-- Cleanliness of the project table: no project maps to an institution name
that the sentinel filter would catch (empty or any-case "unknown"). -/
def clean_project_table (env : Env) : Prop :=
  ∀ p pi, env.PROJECT_DATA p = some pi → ¬ is_sentinel pi.institution

/-- Cleanliness of the resource table: no resource record carries an
institution name that the sentinel filter would catch. -/
def clean_resource_table (env : Env) : Prop :=
  ∀ k r inst, env.RESOURCE_DATA k = some r → r.institution = some inst →
    ¬ is_sentinel inst

/-- Cleanliness of the institution database: no record carries a name that
the sentinel filter would catch. -/
def clean_institution_names (env : Env) : Prop :=
  ∀ k r nm, env.INSTITUTION_DB k = some r → r.name = some nm →
    ¬ is_sentinel nm

/-- All six sets of a dataset record contain no sentinel value. -/
def sentinel_free (d : Datasets) : Prop :=
  (∀ v ∈ d.users, ¬ is_sentinel v) ∧
  (∀ v ∈ d.projects, ¬ is_sentinel v) ∧
  (∀ v ∈ d.institutions_contrib, ¬ is_sentinel v) ∧
  (∀ v ∈ d.institutions_benefit, ¬ is_sentinel v) ∧
  (∀ v ∈ d.non_r1_institutions_contrib, ¬ is_sentinel v) ∧
  (∀ v ∈ d.non_r1_institutions_benefit, ¬ is_sentinel v)

/-- The two non-R1 sets of a dataset record are subsets of the corresponding
full institution sets. -/
def non_r1_subsets (d : Datasets) : Prop :=
  d.non_r1_institutions_contrib ⊆ d.institutions_contrib ∧
  d.non_r1_institutions_benefit ⊆ d.institutions_benefit

/-! ### Concrete inputs used by witnesses and counterexamples -/

/-- Empty reference directories. -/
def envEmpty : Env := ⟨fun _ => none, fun _ => none, fun _ => none⟩

/-- A window with no activity. -/
def emptyWindow : WindowData := ⟨"2024-01-01", 0, 0, 0, 0, [], [], [], []⟩

/-- A window holding only the given `projects` buckets. -/
def projWindow (b : List Bucket) : WindowData := { emptyWindow with projects_buckets := b }

/-- A window holding only the given `resources` buckets. -/
def resWindow (b : List Bucket) : WindowData := { emptyWindow with resources_buckets := b }

/-- A window holding only the given `users` buckets. -/
def userWindow (b : List Bucket) : WindowData := { emptyWindow with users_buckets := b }

/-- A project table mapping the single project "projy" to the institution
name "UNKNOWN" — a reference-table content the engine accepts and on which the
sentinel-exclusion claim fails. -/
def envSentinelInstitution : Env :=
  ⟨fun _ => none,
   fun k => if k = "projy" then some ⟨"UNKNOWN", none⟩ else none,
   fun _ => none⟩

/-- A resource table mapping the resource "sitex" to the institution name
"Unknown" (mixed case) with an id whose Carnegie classification is present
and not R1, so the classification oracle answers `some false`. -/
def envMixedCaseInstitution : Env :=
  ⟨fun k => if k = "sitex" then some ⟨some "Unknown", some "id1"⟩ else none,
   fun _ => none,
   fun k => if k = "id1" then
       some ⟨some "Uni One", some "id1", some ⟨none, some "Research 2"⟩⟩
     else none⟩

/-- The run-total sets are the window-incoming totals `T0` joined with the
window-local raw sets — the bucket loops always insert into both in step. -/
def TotEq (T0 : Datasets) (a : WinAcc) : Prop :=
  a.st.tot.users = T0.users ∪ a.raw.users ∧
  a.st.tot.projects = T0.projects ∪ a.raw.projects ∧
  a.st.tot.institutions_contrib =
    T0.institutions_contrib ∪ a.raw.institutions_contrib ∧
  a.st.tot.institutions_benefit =
    T0.institutions_benefit ∪ a.raw.institutions_benefit ∧
  a.st.tot.non_r1_institutions_contrib =
    T0.non_r1_institutions_contrib ∪ a.raw.non_r1_institutions_contrib ∧
  a.st.tot.non_r1_institutions_benefit =
    T0.non_r1_institutions_benefit ∪ a.raw.non_r1_institutions_benefit

/-- The derived fields of a window document agree with the window's raw sets:
each unique count is a set cardinality, each intersection/union count is the
cardinality of the intersection/union of the underlying sets, and each ratio
is the guarded `N / max(D, 1)` of the document's own fields. -/
def DocOk (doc : MonthlyDoc) (raw : Datasets) : Prop :=
  doc.users = raw.users.card ∧
  doc.projects = raw.projects.card ∧
  doc.institutions_contrib = raw.institutions_contrib.card ∧
  doc.institutions_benefit = raw.institutions_benefit.card ∧
  doc.non_r1_institutions_contrib = raw.non_r1_institutions_contrib.card ∧
  doc.non_r1_institutions_benefit = raw.non_r1_institutions_benefit.card ∧
  doc.institutions_intersect =
    (raw.institutions_contrib ∩ raw.institutions_benefit).card ∧
  doc.non_r1_institutions_intersect =
    (raw.non_r1_institutions_contrib ∩ raw.non_r1_institutions_benefit).card ∧
  doc.institutions_union =
    (raw.institutions_contrib ∪ raw.institutions_benefit).card ∧
  doc.non_r1_institutions_union =
    (raw.non_r1_institutions_contrib ∪ raw.non_r1_institutions_benefit).card ∧
  doc.file_transfers_per_job = fraction doc.files_transferred doc.total_jobs ∧
  doc.pct_institutions_union_non_r1 =
    fraction (doc.non_r1_institutions_union : ℚ) (doc.institutions_union : ℚ) ∧
  doc.pct_institutions_intersect =
    fraction (doc.institutions_intersect : ℚ) (doc.institutions_union : ℚ)

/-! ## Character and string lemmas -/

theorem char_toLower_toNat (c : Char) :
    (Char.toLower c).toNat =
      if 65 ≤ c.toNat ∧ c.toNat ≤ 90 then c.toNat + 32 else c.toNat := by
  unfold Char.toLower
  by_cases h : c.toNat ≥ 65 ∧ c.toNat ≤ 90
  · rw [if_pos h, if_pos h, Char.ofNat, dif_pos (Or.inl (by omega))]
    simp [Char.ofNatAux, Char.toNat, UInt32.toNat]
  · rw [if_neg h, if_neg h]

theorem char_toLower_eq_self (c : Char) (h : ¬ (65 ≤ c.toNat ∧ c.toNat ≤ 90)) :
    Char.toLower c = c := by
  unfold Char.toLower
  rw [if_neg h]

theorem char_toLower_idem (c : Char) :
    Char.toLower (Char.toLower c) = Char.toLower c := by
  have h1 := char_toLower_toNat c
  apply char_toLower_eq_self
  by_cases h : 65 ≤ c.toNat ∧ c.toNat ≤ 90
  · rw [if_pos h] at h1
    omega
  · rw [if_neg h] at h1
    omega

theorem char_toLower_eq_at (c : Char) (h : Char.toLower c = '@') : c = '@' := by
  have h1 := char_toLower_toNat c
  by_cases hc : 65 ≤ c.toNat ∧ c.toNat ≤ 90
  · rw [if_pos hc, h] at h1
    have h64 : ('@' : Char).toNat = 64 := by decide
    exfalso
    omega
  · rw [char_toLower_eq_self c hc] at h
    exact h

theorem lower_lower (s : String) : lower (lower s) = lower s := by
  unfold lower
  exact congrArg String.mk
    ((List.map_map _ _ _).trans
      (List.map_congr_left fun a _ => char_toLower_idem a))

theorem mem_at_map_toLower (l : List Char) :
    '@' ∈ l.map Char.toLower ↔ '@' ∈ l := by
  constructor
  · intro h
    obtain ⟨c, hc, he⟩ := List.mem_map.mp h
    exact (char_toLower_eq_at c he) ▸ hc
  · intro h
    exact List.mem_map.mpr ⟨'@', h, by decide⟩

theorem containsChar_iff (s : String) (c : Char) :
    containsChar s c = true ↔ c ∈ s.data := by
  simp [containsChar, List.contains_iff_exists_mem_beq, beq_iff_eq]

theorem resolve_user_idem (key : String) :
    resolve_user (resolve_user key) = resolve_user key := by
  unfold resolve_user
  by_cases hc : containsChar key '@' = true
  · rw [if_pos hc]
    have hno : ¬ containsChar (lower (splitFirst key '@')) '@' = true := by
      rw [containsChar_iff]
      intro hmem
      unfold lower splitFirst at hmem
      simp only at hmem
      obtain ⟨a, ha, he⟩ := List.mem_map.mp hmem
      have ha2 := List.mem_takeWhile_imp ha
      simp only [ne_eq, decide_eq_true_eq] at ha2
      exact ha2 (char_toLower_eq_at a he)
    rw [if_neg hno]
    exact lower_lower _
  · rw [if_neg hc]
    have hno : ¬ containsChar (lower key) '@' = true := by
      rw [containsChar_iff]
      intro hmem
      unfold lower at hmem
      simp only at hmem
      exact hc ((containsChar_iff key '@').mpr ((mem_at_map_toLower key.data).mp hmem))
    rw [if_neg hno]
    exact lower_lower _

theorem resolve_user_lower (key : String) :
    resolve_user (lower key) = resolve_user key := by
  unfold resolve_user
  have hdata : (lower key).data = key.data.map Char.toLower := rfl
  by_cases hc : containsChar key '@' = true
  · have hc2 : containsChar (lower key) '@' = true := by
      rw [containsChar_iff, hdata, mem_at_map_toLower]
      exact (containsChar_iff key '@').mp hc
    rw [if_pos hc, if_pos hc2]
    unfold splitFirst lower
    congr 1
    simp only [hdata]
    rw [List.takeWhile_map]
    have hp : ((fun a => decide (a ≠ '@')) ∘ Char.toLower) =
        (fun a : Char => decide (a ≠ '@')) := by
      funext a
      by_cases ha : a = '@'
      · subst ha
        simp [Function.comp]
      · have hne : Char.toLower a ≠ '@' := fun h => ha (char_toLower_eq_at a h)
        simp [Function.comp, ha, hne]
    rw [hp, List.map_map]
    exact List.map_congr_left fun a _ => char_toLower_idem a
  · have hc2 : ¬ containsChar (lower key) '@' = true := by
      rw [containsChar_iff, hdata, mem_at_map_toLower]
      exact fun h => hc ((containsChar_iff key '@').mpr h)
    rw [if_neg hc, if_neg hc2]
    exact lower_lower key

/-! ## Claim C9 -/

/-- C9: user-category resolution strips any domain suffix after the first
`@` and case-folds; it maps "Alice", "alice" and "ALICE@ap.example.org" all
to the canonical value "alice", it is idempotent (an already-canonical value
resolves to itself), and it is case-insensitive (a key and its case-folding
resolve identically). -/
theorem user_resolution_idempotent_case_insensitive :
    resolve_user "Alice" = "alice" ∧
    resolve_user "alice" = "alice" ∧
    resolve_user "ALICE@ap.example.org" = "alice" ∧
    (∀ key, resolve_user (resolve_user key) = resolve_user key) ∧
    (∀ key, resolve_user (lower key) = resolve_user key) :=
  ⟨by decide, by decide, by decide, resolve_user_idem, resolve_user_lower⟩

/-! ## Calendar lemmas -/

theorem ordinal_f_succ (n : Nat) :
    (((n + 1) / 4 : Nat) : Int) - (((n + 1) / 100 : Nat) : Int)
        + (((n + 1) / 400 : Nat) : Int)
      = ((n / 4 : Nat) : Int) - ((n / 100 : Nat) : Int) + ((n / 400 : Nat) : Int)
        + (if isLeapYear (n + 1) = true then 1 else 0) := by
  have hl : (isLeapYear (n + 1) = true) ↔
      ((n + 1) % 4 = 0 ∧ ((n + 1) % 100 ≠ 0 ∨ (n + 1) % 400 = 0)) := by
    simp [isLeapYear]
  rw [Nat.succ_div n 4, Nat.succ_div n 100, Nat.succ_div n 400]
  simp only [hl]
  split_ifs <;> push_cast <;> omega

theorem isLeapYear_iff (y : Nat) :
    isLeapYear y = true ↔ (y % 4 = 0 ∧ (y % 100 ≠ 0 ∨ y % 400 = 0)) := by
  simp [isLeapYear]

theorem toOrdinal_prev_month_lt (anchor : Nat) (dt : Date)
    (h : WindowInv anchor dt) (ha1 : 1 ≤ anchor) (ha31 : anchor ≤ 31)
    (hy : 2 ≤ dt.year) :
    toOrdinal (prev_month dt anchor) < toOrdinal dt := by
  obtain ⟨y, m, d⟩ := dt
  obtain ⟨h1, h2, h3, h4⟩ := h
  simp only at h1 h2 h3 h4 hy ⊢
  by_cases hm : m = 1
  · subst hm
    have hprev : prev_month ⟨y, 1, d⟩ anchor = ⟨y - 1, 12, anchor⟩ := by
      unfold prev_month
      norm_num
    rw [hprev]
    unfold toOrdinal daysBeforeMonth
    by_cases hL : ((y - 1) % 4 = 0 ∧ ((y - 1) % 100 ≠ 0 ∨ (y - 1) % 400 = 0))
    · simp only [(isLeapYear_iff (y - 1)).mpr hL]
      norm_num
      omega
    · have hLf : isLeapYear (y - 1) = false := by
        rcases hb : isLeapYear (y - 1)
        · rfl
        · exact absurd ((isLeapYear_iff (y - 1)).mp hb) hL
      simp only [hLf]
      norm_num
      omega
  · have h2' : 2 ≤ m := by omega
    unfold prev_month toOrdinal
    simp only [if_neg hm]
    interval_cases m <;>
      simp only [daysBeforeMonth] <;> norm_num <;> omega

theorem windowInv_prev_month (anchor : Nat) (dt : Date)
    (h : WindowInv anchor dt) (ha1 : 1 ≤ anchor) :
    WindowInv anchor (prev_month dt anchor) := by
  obtain ⟨y, m, d⟩ := dt
  obtain ⟨h1, h2, h3, h4⟩ := h
  unfold WindowInv prev_month
  simp only at *
  split_ifs <;> omega

theorem prev_month_day_clipped (anchor : Nat) (dt : Date)
    (h : WindowInv anchor dt) :
    (prev_month dt anchor).day = clipped_day anchor (prev_month dt anchor).month := by
  obtain ⟨y, m, d⟩ := dt
  obtain ⟨h1, h2, h3, h4⟩ := h
  unfold prev_month clipped_day
  simp only at *
  split_ifs <;> omega

theorem prev_month_year_ge (dt : Date) (anchor : Nat) :
    dt.year - 1 ≤ (prev_month dt anchor).year := by
  unfold prev_month
  split_ifs <;> simp

theorem get_timestamps_aux_head_end (anchor : Nat) (stop : Int) (fuel : Nat)
    (dt : Date) (w : Date × Date)
    (h : (get_timestamps_aux anchor stop fuel dt).head? = some w) : w.2 = dt := by
  cases fuel with
  | zero => simp [get_timestamps_aux] at h
  | succ f =>
    unfold get_timestamps_aux at h
    by_cases hc : toOrdinal dt > stop
    · rw [if_pos hc] at h
      simp at h
      rw [← h]
    · rw [if_neg hc] at h
      simp at h

theorem get_timestamps_aux_chain (anchor : Nat) (stop : Int) :
    ∀ fuel dt, List.Chain' (fun w v => w.1 = v.2)
      (get_timestamps_aux anchor stop fuel dt) := by
  intro fuel
  induction fuel with
  | zero => intro dt; simp [get_timestamps_aux]
  | succ f ih =>
    intro dt
    unfold get_timestamps_aux
    by_cases hc : toOrdinal dt > stop
    · rw [if_pos hc, List.chain'_cons']
      refine ⟨?_, ih _⟩
      intro v hv
      exact (get_timestamps_aux_head_end anchor stop f _ v hv).symm
    · rw [if_neg hc]
      simp

theorem get_timestamps_aux_mem (anchor : Nat) (stop : Int) (ha1 : 1 ≤ anchor) :
    ∀ fuel dt, WindowInv anchor dt →
      ∀ w ∈ get_timestamps_aux anchor stop fuel dt,
        w.1 = prev_month w.2 anchor ∧ WindowInv anchor w.2 ∧ WindowInv anchor w.1 ∧
        w.1.day = clipped_day anchor w.1.month := by
  intro fuel
  induction fuel with
  | zero =>
    intro dt _ w hw
    simp [get_timestamps_aux] at hw
  | succ f ih =>
    intro dt hInv w hw
    unfold get_timestamps_aux at hw
    by_cases hc : toOrdinal dt > stop
    · rw [if_pos hc] at hw
      rcases List.mem_cons.mp hw with hw1 | hw2
      · subst hw1
        exact ⟨rfl, hInv, windowInv_prev_month anchor dt hInv ha1,
          prev_month_day_clipped anchor dt hInv⟩
      · exact ih _ (windowInv_prev_month anchor dt hInv ha1) w hw2
    · rw [if_neg hc] at hw
      simp at hw

theorem get_timestamps_aux_mem_lt (anchor : Nat) (stop : Int)
    (ha1 : 1 ≤ anchor) (ha31 : anchor ≤ 31) :
    ∀ fuel dt, WindowInv anchor dt → fuel + 1 ≤ dt.year →
      ∀ w ∈ get_timestamps_aux anchor stop fuel dt,
        toOrdinal w.1 < toOrdinal w.2 := by
  intro fuel
  induction fuel with
  | zero =>
    intro dt _ _ w hw
    simp [get_timestamps_aux] at hw
  | succ f ih =>
    intro dt hInv hyear w hw
    unfold get_timestamps_aux at hw
    by_cases hc : toOrdinal dt > stop
    · rw [if_pos hc] at hw
      rcases List.mem_cons.mp hw with hw1 | hw2
      · subst hw1
        exact toOrdinal_prev_month_lt anchor dt hInv ha1 ha31 (by omega)
      · have hyr := prev_month_year_ge dt anchor
        exact ih _ (windowInv_prev_month anchor dt hInv ha1) (by omega) w hw2
    · rw [if_neg hc] at hw
      simp at hw

theorem get_timestamps_aux_last_le (anchor : Nat) (stop : Int)
    (ha1 : 1 ≤ anchor) (ha31 : anchor ≤ 31) :
    ∀ fuel dt, WindowInv anchor dt → fuel + 1 ≤ dt.year →
      toOrdinal dt ≤ stop + fuel →
      toOrdinal ((get_timestamps_aux anchor stop fuel dt).getLastD (dt, dt)).1
        ≤ stop := by
  intro fuel
  induction fuel with
  | zero =>
    intro dt _ _ hle
    simp [get_timestamps_aux]
    omega
  | succ f ih =>
    intro dt hInv hyear hle
    unfold get_timestamps_aux
    by_cases hc : toOrdinal dt > stop
    · rw [if_pos hc]
      have hI2 := windowInv_prev_month anchor dt hInv ha1
      have hlt := toOrdinal_prev_month_lt anchor dt hInv ha1 ha31 (by omega)
      have hyr := prev_month_year_ge dt anchor
      have hrec := ih (prev_month dt anchor) hI2 (by omega) (by omega)
      rw [List.getLastD_cons]
      cases hl : get_timestamps_aux anchor stop f (prev_month dt anchor) with
      | nil =>
        rw [hl] at hrec
        simpa using hrec
      | cons a l =>
        rw [hl] at hrec
        rw [List.getLastD_cons] at hrec ⊢
        exact hrec
    · rw [if_neg hc]
      simp
      omega

/-! ## Claims C6 and C7 -/

/-- C6: every window start produced by the partitioner is the anchor day of
"now" unless the start's month is shorter than that day — clipped to 30 for
September, April, June and November and to 28 for February in every year,
with no leap-year awareness; in particular for now = 2024-03-31 and
total_days = 365 the first window (the one immediately preceding March) is
[2024-02-28, 2024-03-31) even though 2024 is a leap year. -/
theorem window_start_day_clipping (now : Date) (days : Nat)
    (hm1 : 1 ≤ now.month) (hm2 : now.month ≤ 12)
    (hd1 : 1 ≤ now.day) (hd2 : now.day ≤ 31) :
    (∀ w ∈ get_timestamps now days,
        w.1 = prev_month w.2 now.day ∧
        w.1.day = clipped_day now.day w.1.month) ∧
    (get_timestamps ⟨2024, 3, 31⟩ 365).head? =
      some (⟨2024, 2, 28⟩, ⟨2024, 3, 31⟩) := by
  constructor
  · intro w hw
    have hInv : WindowInv now.day now := ⟨hm1, hm2, hd1, Or.inl rfl⟩
    have hmem := get_timestamps_aux_mem now.day (toOrdinal now - days) hd1
      (days + 1) now hInv w hw
    exact ⟨hmem.1, hmem.2.2.2⟩
  · decide

theorem window_start_day_clipping_witness : 28 = clipped_day 31 2 :=
  ((window_start_day_clipping ⟨2024, 3, 31⟩ 365 (by decide) (by decide)
      (by decide) (by decide)).1
    (⟨2024, 2, 28⟩, ⟨2024, 3, 31⟩) (by decide)).2

/-- C7: for a valid "now" (calendar month, day at most 31, enough years of
history) and a positive day count, the generated window list is nonempty and
anchored at "now" (newest first), consecutive windows are contiguous
(window[i].start = window[i+1].end), every window's end is strictly after its
start (so the list is chronologically strictly descending), and the covered
span — "now" minus the oldest window's start — is at least the requested
number of days. -/
theorem windows_contiguous_descending_span (now : Date) (days : Nat)
    (hm1 : 1 ≤ now.month) (hm2 : now.month ≤ 12)
    (hd1 : 1 ≤ now.day) (hd2 : now.day ≤ 31)
    (hdays : 1 ≤ days) (hyear : days + 2 ≤ now.year) :
    List.Chain' (fun w v => w.1 = v.2) (get_timestamps now days) ∧
    (∀ w, (get_timestamps now days).head? = some w → w.2 = now) ∧
    (∀ w ∈ get_timestamps now days, toOrdinal w.1 < toOrdinal w.2) ∧
    get_timestamps now days ≠ [] ∧
    (days : Int) ≤ toOrdinal now
      - toOrdinal ((get_timestamps now days).getLastD (now, now)).1 := by
  have hInv : WindowInv now.day now := ⟨hm1, hm2, hd1, Or.inl rfl⟩
  refine ⟨get_timestamps_aux_chain now.day (toOrdinal now - days) (days + 1) now,
    fun w hw => get_timestamps_aux_head_end now.day (toOrdinal now - days)
      (days + 1) now w hw,
    fun w hw => get_timestamps_aux_mem_lt now.day (toOrdinal now - days) hd1 hd2
      (days + 1) now hInv (by omega) w hw,
    ?_, ?_⟩
  · unfold get_timestamps get_timestamps_aux
    rw [if_pos (by omega)]
    simp
  · have hlast := get_timestamps_aux_last_le now.day (toOrdinal now - days)
      hd1 hd2 (days + 1) now hInv (by omega) (by omega)
    unfold get_timestamps
    omega

/-! ## The paired-insert invariant (run totals = incoming totals ∪ raw sets) -/

theorem totEq_addBothUsers (T0 : Datasets) (a : WinAcc) (v : String)
    (h : TotEq T0 a) : TotEq T0 (addBothUsers v a) := by
  obtain ⟨h1, h2, h3, h4, h5, h6⟩ := h
  exact ⟨by rw [addBothUsers, h1, Finset.union_insert], h2, h3, h4, h5, h6⟩

theorem totEq_addBothProjects (T0 : Datasets) (a : WinAcc) (v : String)
    (h : TotEq T0 a) : TotEq T0 (addBothProjects v a) := by
  obtain ⟨h1, h2, h3, h4, h5, h6⟩ := h
  exact ⟨h1, by rw [addBothProjects, h2, Finset.union_insert], h3, h4, h5, h6⟩

theorem totEq_addBothContrib (T0 : Datasets) (a : WinAcc) (v : String)
    (h : TotEq T0 a) : TotEq T0 (addBothContrib v a) := by
  obtain ⟨h1, h2, h3, h4, h5, h6⟩ := h
  exact ⟨h1, h2, by rw [addBothContrib, h3, Finset.union_insert], h4, h5, h6⟩

theorem totEq_addBothBenefit (T0 : Datasets) (a : WinAcc) (v : String)
    (h : TotEq T0 a) : TotEq T0 (addBothBenefit v a) := by
  obtain ⟨h1, h2, h3, h4, h5, h6⟩ := h
  exact ⟨h1, h2, h3, by rw [addBothBenefit, h4, Finset.union_insert], h5, h6⟩

theorem totEq_addBothNonR1Contrib (T0 : Datasets) (a : WinAcc) (v : String)
    (h : TotEq T0 a) : TotEq T0 (addBothNonR1Contrib v a) := by
  obtain ⟨h1, h2, h3, h4, h5, h6⟩ := h
  exact ⟨h1, h2, h3, h4, by rw [addBothNonR1Contrib, h5, Finset.union_insert], h6⟩

theorem totEq_addBothNonR1Benefit (T0 : Datasets) (a : WinAcc) (v : String)
    (h : TotEq T0 a) : TotEq T0 (addBothNonR1Benefit v a) := by
  obtain ⟨h1, h2, h3, h4, h5, h6⟩ := h
  exact ⟨h1, h2, h3, h4, h5, by rw [addBothNonR1Benefit, h6, Finset.union_insert]⟩

theorem totEq_users_bucket (T0 : Datasets) (b : Bucket) (a : WinAcc)
    (h : TotEq T0 a) : TotEq T0 (process_users_bucket b a) := by
  show TotEq T0 (if is_sentinel (resolve_user b.key) then a
    else addBothUsers (resolve_user b.key) a)
  split_ifs
  · exact h
  · exact totEq_addBothUsers T0 a _ h

theorem totEq_benefit_step (env : Env) (T0 : Datasets) (b : Bucket) (a : WinAcc)
    (h : TotEq T0 a) : TotEq T0 (projects_benefit_step env b a) := by
  unfold projects_benefit_step
  cases env.PROJECT_DATA (lower b.key) with
  | none => exact h
  | some pi => exact totEq_addBothBenefit T0 a _ h

theorem totEq_mid_step (env : Env) (T0 : Datasets) (b : Bucket) (a1 a2 : WinAcc)
    (hm : projects_mid_step env b a1 = some a2) (h : TotEq T0 a1) :
    TotEq T0 a2 := by
  unfold projects_mid_step at hm
  split_ifs at hm with h1 h2
  · obtain rfl := Option.some.inj hm
    exact h
  · dsimp only at hm
    split at hm
    · exact Option.noConfusion hm
    · obtain rfl := Option.some.inj hm
      exact h
  · split at hm
    · split at hm
      · split_ifs at hm
        · obtain rfl := Option.some.inj hm
          exact totEq_addBothNonR1Benefit T0 a1 _ h
        · obtain rfl := Option.some.inj hm
          exact h
      · obtain rfl := Option.some.inj hm
        exact h
    · obtain rfl := Option.some.inj hm
      exact h

theorem totEq_tail_step (T0 : Datasets) (b : Bucket) (a2 : WinAcc)
    (h : TotEq T0 a2) : TotEq T0 (projects_tail_step b a2) := by
  unfold projects_tail_step
  split_ifs
  · exact h
  · exact totEq_addBothProjects T0 a2 _ h

theorem totEq_projects_bucket (env : Env) (T0 : Datasets) (b : Bucket)
    (a a2 : WinAcc) (hp : process_projects_bucket env b a = some a2)
    (h : TotEq T0 a) : TotEq T0 a2 := by
  unfold process_projects_bucket at hp
  cases hm : projects_mid_step env b (projects_benefit_step env b a) with
  | none =>
    rw [hm] at hp
    exact Option.noConfusion hp
  | some amid =>
    rw [hm] at hp
    obtain rfl := Option.some.inj hp
    exact totEq_tail_step T0 b amid
      (totEq_mid_step env T0 b _ amid hm (totEq_benefit_step env T0 b a h))

theorem totEq_contrib_main (env : Env) (T0 : Datasets) (b : Bucket) (a : WinAcc)
    (h : TotEq T0 a) : TotEq T0 (contrib_main_step env b a) := by
  unfold contrib_main_step
  split_ifs
  · exact h
  · exact h
  · exact totEq_addBothNonR1Contrib T0 a _ h
  · exact h

theorem totEq_contrib_bucket (env : Env) (T0 : Datasets) (b : Bucket) (a : WinAcc)
    (h : TotEq T0 a) : TotEq T0 (process_contrib_bucket env b a) := by
  unfold process_contrib_bucket contrib_tail_step
  split_ifs
  · exact totEq_contrib_main env T0 b a h
  · exact totEq_addBothContrib T0 _ _ (totEq_contrib_main env T0 b a h)

theorem totEq_users_list (T0 : Datasets) :
    ∀ (bs : List Bucket) (a : WinAcc), TotEq T0 a →
      TotEq T0 (process_users_list bs a) := by
  intro bs
  induction bs with
  | nil => intro a h; exact h
  | cons b bs ih =>
    intro a h
    exact ih _ (totEq_users_bucket T0 b a h)

theorem totEq_projects_list (env : Env) (T0 : Datasets) :
    ∀ (bs : List Bucket) (a a2 : WinAcc),
      process_projects_list env bs a = some a2 → TotEq T0 a → TotEq T0 a2 := by
  intro bs
  induction bs with
  | nil =>
    intro a a2 h hT
    obtain rfl := Option.some.inj h
    exact hT
  | cons b bs ih =>
    intro a a2 h hT
    unfold process_projects_list at h
    split at h
    · exact Option.noConfusion h
    · next amid hb =>
      exact ih amid a2 h (totEq_projects_bucket env T0 b a amid hb hT)

theorem totEq_contrib_list (env : Env) (T0 : Datasets) :
    ∀ (bs : List Bucket) (a : WinAcc), TotEq T0 a →
      TotEq T0 (process_contrib_list env bs a) := by
  intro bs
  induction bs with
  | nil => intro a h; exact h
  | cons b bs ih =>
    intro a h
    exact ih _ (totEq_contrib_bucket env T0 b a h)

theorem process_window_spec (env : Env) (st : RunState) (w : WindowData)
    (doc : MonthlyDoc) (raw : Datasets) (st1 : RunState)
    (h : process_window env st w = some (doc, raw, st1)) :
    (st1.tot.users = st.tot.users ∪ raw.users ∧
     st1.tot.projects = st.tot.projects ∪ raw.projects ∧
     st1.tot.institutions_contrib =
       st.tot.institutions_contrib ∪ raw.institutions_contrib ∧
     st1.tot.institutions_benefit =
       st.tot.institutions_benefit ∪ raw.institutions_benefit ∧
     st1.tot.non_r1_institutions_contrib =
       st.tot.non_r1_institutions_contrib ∪ raw.non_r1_institutions_contrib ∧
     st1.tot.non_r1_institutions_benefit =
       st.tot.non_r1_institutions_benefit ∪ raw.non_r1_institutions_benefit) ∧
    DocOk doc raw := by
  unfold process_window at h
  dsimp only at h
  split at h
  · exact Option.noConfusion h
  · next a2 hpl =>
    simp only [Option.some_inj, Prod.mk.injEq] at h
    obtain ⟨hdoc, hraw, hst⟩ := h
    subst hdoc
    subst hraw
    subst hst
    have h0 : TotEq st.tot
        (⟨emptyDatasets, { st with
          total_jobs := st.total_jobs + w.total_jobs
          core_hours := st.core_hours + w.core_hours
          files_transferred := st.files_transferred + w.files_transferred
          osdf_files_transferred :=
            st.osdf_files_transferred + w.osdf_files_transferred }, 0, 0⟩ : WinAcc) :=
      ⟨(Finset.union_empty _).symm, (Finset.union_empty _).symm,
       (Finset.union_empty _).symm, (Finset.union_empty _).symm,
       (Finset.union_empty _).symm, (Finset.union_empty _).symm⟩
    have h1 := totEq_users_list st.tot w.users_buckets _ h0
    have h2 := totEq_projects_list env st.tot w.projects_buckets _ a2 hpl h1
    have h3 := totEq_contrib_list env st.tot
      (w.resources_buckets ++ w.resource_ids_buckets) a2 h2
    exact ⟨h3, rfl, rfl, rfl, rfl, rfl, rfl, rfl, rfl, rfl, rfl, rfl, rfl, rfl⟩

theorem run_windows_spec (env : Env) :
    ∀ (ws : List WindowData) (st : RunState)
      (docs : List (MonthlyDoc × Datasets)) (st2 : RunState),
      run_windows env ws st = some (docs, st2) →
      (st2.tot.users =
          st.tot.users ∪ (unionDatasets (docs.map Prod.snd)).users ∧
        st2.tot.projects =
          st.tot.projects ∪ (unionDatasets (docs.map Prod.snd)).projects ∧
        st2.tot.institutions_contrib =
          st.tot.institutions_contrib ∪
            (unionDatasets (docs.map Prod.snd)).institutions_contrib ∧
        st2.tot.institutions_benefit =
          st.tot.institutions_benefit ∪
            (unionDatasets (docs.map Prod.snd)).institutions_benefit ∧
        st2.tot.non_r1_institutions_contrib =
          st.tot.non_r1_institutions_contrib ∪
            (unionDatasets (docs.map Prod.snd)).non_r1_institutions_contrib ∧
        st2.tot.non_r1_institutions_benefit =
          st.tot.non_r1_institutions_benefit ∪
            (unionDatasets (docs.map Prod.snd)).non_r1_institutions_benefit) ∧
      (∀ p ∈ docs, DocOk p.1 p.2) := by
  intro ws
  induction ws with
  | nil =>
    intro st docs st2 h
    unfold run_windows at h
    simp only [Option.some_inj, Prod.mk.injEq] at h
    obtain ⟨hdocs, hst⟩ := h
    subst hdocs
    subst hst
    refine ⟨⟨?_, ?_, ?_, ?_, ?_, ?_⟩, by simp⟩ <;>
      exact (Finset.union_empty _).symm
  | cons w ws ih =>
    intro st docs st2 h
    unfold run_windows at h
    split at h
    · exact Option.noConfusion h
    · next doc raw st1 hpw =>
      split at h
      · exact Option.noConfusion h
      · next rest stF hrw =>
        simp only [Option.some_inj, Prod.mk.injEq] at h
        obtain ⟨hdocs, hst⟩ := h
        subst hdocs
        subst hst
        obtain ⟨⟨hw1, hw2, hw3, hw4, hw5, hw6⟩, hwd⟩ :=
          process_window_spec env st w doc raw st1 hpw
        obtain ⟨⟨hr1, hr2, hr3, hr4, hr5, hr6⟩, hrd⟩ := ih st1 rest stF hrw
        constructor
        · refine ⟨?_, ?_, ?_, ?_, ?_, ?_⟩
          · rw [hr1, hw1, Finset.union_assoc]
            rfl
          · rw [hr2, hw2, Finset.union_assoc]
            rfl
          · rw [hr3, hw3, Finset.union_assoc]
            rfl
          · rw [hr4, hw4, Finset.union_assoc]
            rfl
          · rw [hr5, hw5, Finset.union_assoc]
            rfl
          · rw [hr6, hw6, Finset.union_assoc]
            rfl
        · intro p hp
          rcases List.mem_cons.mp hp with hp1 | hp2
          · subst hp1
            exact hwd
          · exact hrd p hp2

theorem get_monthly_docs_spec (env : Env) (ws : List WindowData)
    (docs : List (MonthlyDoc × Datasets)) (td : TotalDoc) (st : RunState)
    (h : get_monthly_docs env ws = some (docs, td, st)) :
    run_windows env ws initRunState = some (docs, st) ∧ td = finalize_total st := by
  unfold get_monthly_docs at h
  split at h
  · exact Option.noConfusion h
  · next docs0 st0 hr =>
    simp only [Option.some_inj, Prod.mk.injEq] at h
    obtain ⟨h1, h2, h3⟩ := h
    subst h1
    subst h3
    exact ⟨hr, h2.symm⟩

/-! ## Claim C1 -/

/-- C1: on every successful run, each of the six TOTAL-document set
cardinalities (users, projects, contributing/benefiting institutions and
their non-R1 variants) is the cardinality of the union of that category's
per-window sets — the run-total sets are exactly the fieldwise unions of the
per-window `raw_datasets` — and the TOTAL document's derived intersection and
union metrics are computed from those union sets, not from sums of per-window
cardinalities. -/
theorem total_counts_from_union_of_window_sets (env : Env) (ws : List WindowData)
    (docs : List (MonthlyDoc × Datasets)) (td : TotalDoc) (st : RunState)
    (h : get_monthly_docs env ws = some (docs, td, st)) :
    st.tot.users = (unionDatasets (docs.map Prod.snd)).users ∧
    st.tot.projects = (unionDatasets (docs.map Prod.snd)).projects ∧
    st.tot.institutions_contrib =
      (unionDatasets (docs.map Prod.snd)).institutions_contrib ∧
    st.tot.institutions_benefit =
      (unionDatasets (docs.map Prod.snd)).institutions_benefit ∧
    st.tot.non_r1_institutions_contrib =
      (unionDatasets (docs.map Prod.snd)).non_r1_institutions_contrib ∧
    st.tot.non_r1_institutions_benefit =
      (unionDatasets (docs.map Prod.snd)).non_r1_institutions_benefit ∧
    td.users = (unionDatasets (docs.map Prod.snd)).users.card ∧
    td.projects = (unionDatasets (docs.map Prod.snd)).projects.card ∧
    td.institutions_contrib =
      (unionDatasets (docs.map Prod.snd)).institutions_contrib.card ∧
    td.institutions_benefit =
      (unionDatasets (docs.map Prod.snd)).institutions_benefit.card ∧
    td.non_r1_institutions_contrib =
      (unionDatasets (docs.map Prod.snd)).non_r1_institutions_contrib.card ∧
    td.non_r1_institutions_benefit =
      (unionDatasets (docs.map Prod.snd)).non_r1_institutions_benefit.card ∧
    td.institutions_intersect =
      ((unionDatasets (docs.map Prod.snd)).institutions_contrib ∩
        (unionDatasets (docs.map Prod.snd)).institutions_benefit).card ∧
    td.non_r1_institutions_intersect =
      ((unionDatasets (docs.map Prod.snd)).non_r1_institutions_contrib ∩
        (unionDatasets (docs.map Prod.snd)).non_r1_institutions_benefit).card ∧
    td.institutions_union =
      ((unionDatasets (docs.map Prod.snd)).institutions_contrib ∪
        (unionDatasets (docs.map Prod.snd)).institutions_benefit).card ∧
    td.non_r1_institutions_union =
      ((unionDatasets (docs.map Prod.snd)).non_r1_institutions_contrib ∪
        (unionDatasets (docs.map Prod.snd)).non_r1_institutions_benefit).card := by
  obtain ⟨hr, htd⟩ := get_monthly_docs_spec env ws docs td st h
  obtain ⟨⟨h1, h2, h3, h4, h5, h6⟩, _⟩ := run_windows_spec env ws initRunState docs st hr
  have e1 : st.tot.users = (unionDatasets (docs.map Prod.snd)).users := by
    rw [h1]; exact Finset.empty_union _
  have e2 : st.tot.projects = (unionDatasets (docs.map Prod.snd)).projects := by
    rw [h2]; exact Finset.empty_union _
  have e3 : st.tot.institutions_contrib =
      (unionDatasets (docs.map Prod.snd)).institutions_contrib := by
    rw [h3]; exact Finset.empty_union _
  have e4 : st.tot.institutions_benefit =
      (unionDatasets (docs.map Prod.snd)).institutions_benefit := by
    rw [h4]; exact Finset.empty_union _
  have e5 : st.tot.non_r1_institutions_contrib =
      (unionDatasets (docs.map Prod.snd)).non_r1_institutions_contrib := by
    rw [h5]; exact Finset.empty_union _
  have e6 : st.tot.non_r1_institutions_benefit =
      (unionDatasets (docs.map Prod.snd)).non_r1_institutions_benefit := by
    rw [h6]; exact Finset.empty_union _
  subst htd
  exact ⟨e1, e2, e3, e4, e5, e6,
    congrArg Finset.card e1, congrArg Finset.card e2, congrArg Finset.card e3,
    congrArg Finset.card e4, congrArg Finset.card e5, congrArg Finset.card e6,
    by rw [finalize_total]; dsimp only; rw [e3, e4],
    by rw [finalize_total]; dsimp only; rw [e5, e6],
    by rw [finalize_total]; dsimp only; rw [e3, e4],
    by rw [finalize_total]; dsimp only; rw [e5, e6]⟩

theorem total_counts_from_union_of_window_sets_witness :
    initRunState.tot.users =
      (unionDatasets ((([] : List (MonthlyDoc × Datasets))).map Prod.snd)).users :=
  (total_counts_from_union_of_window_sets envEmpty [] []
    (finalize_total initRunState) initRunState rfl).1

/-! ## Claim C8 -/

/-- C8: every derived ratio, in every window document and in the TOTAL
document, is computed as N / max(D, 1) from that document's own numerator and
denominator fields; in particular a zero denominator divides by 1 (no
division-by-zero error) and 0/0 yields 0. -/
theorem ratio_division_guard (env : Env) (ws : List WindowData)
    (docs : List (MonthlyDoc × Datasets)) (td : TotalDoc) (st : RunState)
    (h : get_monthly_docs env ws = some (docs, td, st)) :
    (∀ p ∈ docs,
      p.1.file_transfers_per_job =
        fraction p.1.files_transferred p.1.total_jobs ∧
      p.1.pct_institutions_union_non_r1 =
        fraction (p.1.non_r1_institutions_union : ℚ) (p.1.institutions_union : ℚ) ∧
      p.1.pct_institutions_intersect =
        fraction (p.1.institutions_intersect : ℚ) (p.1.institutions_union : ℚ)) ∧
    (td.file_transfers_per_job = fraction td.files_transferred td.total_jobs ∧
     td.pct_institutions_union_non_r1 =
       fraction (td.non_r1_institutions_union : ℚ) (td.institutions_union : ℚ) ∧
     td.pct_institutions_intersect =
       fraction (td.institutions_intersect : ℚ) (td.institutions_union : ℚ)) ∧
    (∀ n : ℚ, fraction n 0 = n / 1) ∧
    fraction 0 0 = 0 := by
  obtain ⟨hr, htd⟩ := get_monthly_docs_spec env ws docs td st h
  obtain ⟨_, hdocs⟩ := run_windows_spec env ws initRunState docs st hr
  subst htd
  refine ⟨?_, ⟨rfl, rfl, rfl⟩, ?_, ?_⟩
  · intro p hp
    obtain ⟨_, _, _, _, _, _, _, _, _, _, hf1, hf2, hf3⟩ := hdocs p hp
    exact ⟨hf1, hf2, hf3⟩
  · intro n
    unfold fraction
    norm_num
  · unfold fraction
    norm_num

theorem ratio_division_guard_witness : fraction 0 0 = 0 :=
  (ratio_division_guard envEmpty [] [] (finalize_total initRunState)
    initRunState rfl).2.2.2

/-! ## Claim C5 -/

/-- C5: the classification oracle returns absent (None) exactly when the id
is empty, the id is not in the institution database, the record lacks
Carnegie metadata, or the metadata lacks both recognized classification keys;
it returns true or false only when a classification key is present; and the
non-R1 sets, which the engine populates only on an exact False result, are
left unchanged by a bucket whose oracle result is not False — in particular
by one whose result is absent. -/
theorem classification_oracle_absent (env : Env) (id : String) :
    (is_r1_institution env id = none ↔
      (id = "" ∨ env.INSTITUTION_DB id = none ∨
       (∃ rec, env.INSTITUTION_DB id = some rec ∧
         rec.carnegie_metadata = none) ∨
       (∃ rec cm, env.INSTITUTION_DB id = some rec ∧
         rec.carnegie_metadata = some cm ∧
         cm.classification2021 = none ∧ cm.classification2025 = none))) ∧
    (∀ bv, is_r1_institution env id = some bv →
      ∃ rec cm, env.INSTITUTION_DB id = some rec ∧
        rec.carnegie_metadata = some cm ∧
        (cm.classification2021 ≠ none ∨ cm.classification2025 ≠ none)) ∧
    (∀ b a1 a2, projects_mid_step env b a1 = some a2 →
      (∀ pi pid, env.PROJECT_DATA (lower b.key) = some pi →
        pi.institution_id = some pid →
        is_r1_institution env pid ≠ some false) →
      a2.raw.non_r1_institutions_benefit = a1.raw.non_r1_institutions_benefit ∧
      a2.st.tot.non_r1_institutions_benefit =
        a1.st.tot.non_r1_institutions_benefit) ∧
    (∀ b a, is_r1_institution env (contrib_resource_id env b.key) ≠ some false →
      (contrib_main_step env b a).raw.non_r1_institutions_contrib =
        a.raw.non_r1_institutions_contrib ∧
      (contrib_main_step env b a).st.tot.non_r1_institutions_contrib =
        a.st.tot.non_r1_institutions_contrib) := by
  refine ⟨?_, ?_, ?_, ?_⟩
  · unfold is_r1_institution
    by_cases hid : id = ""
    · simp [hid]
    · rw [if_neg hid]
      cases hdb : env.INSTITUTION_DB id with
      | none => simp [hid]
      | some rec =>
        dsimp only
        cases hcm : rec.carnegie_metadata with
        | none =>
          refine iff_of_true rfl (Or.inr (Or.inr (Or.inl ⟨rec, rfl, hcm⟩)))
        | some cm =>
          dsimp only
          by_cases hcls : cm.classification2021 = none ∧
              cm.classification2025 = none
          · rw [if_pos hcls]
            exact iff_of_true rfl
              (Or.inr (Or.inr (Or.inr ⟨rec, cm, rfl, hcm, hcls.1, hcls.2⟩)))
          · rw [if_neg hcls]
            refine iff_of_false (by simp) ?_
            rintro (h | h | ⟨rec2, hrec2, hcm2⟩ |
              ⟨rec2, cm2, hrec2, hcm2, hc1, hc2⟩)
            · exact hid h
            · exact Option.noConfusion h
            · obtain rfl := Option.some.inj hrec2
              rw [hcm] at hcm2
              exact Option.noConfusion hcm2
            · obtain rfl := Option.some.inj hrec2
              rw [hcm] at hcm2
              obtain rfl := Option.some.inj hcm2
              exact hcls ⟨hc1, hc2⟩
  · intro bv hbv
    unfold is_r1_institution at hbv
    by_cases hid : id = ""
    · rw [if_pos hid] at hbv
      exact Option.noConfusion hbv
    · rw [if_neg hid] at hbv
      cases hdb : env.INSTITUTION_DB id with
      | none =>
        rw [hdb] at hbv
        exact Option.noConfusion hbv
      | some rec =>
        rw [hdb] at hbv
        dsimp only at hbv
        cases hcm : rec.carnegie_metadata with
        | none =>
          rw [hcm] at hbv
          exact Option.noConfusion hbv
        | some cm =>
          rw [hcm] at hbv
          dsimp only at hbv
          by_cases hcls : cm.classification2021 = none ∧
              cm.classification2025 = none
          · rw [if_pos hcls] at hbv
            exact Option.noConfusion hbv
          · exact ⟨rec, cm, rfl, hcm, by tauto⟩
  · intro b a1 a2 hm hno
    unfold projects_mid_step at hm
    split_ifs at hm with h1 h2
    · obtain rfl := Option.some.inj hm
      exact ⟨rfl, rfl⟩
    · dsimp only at hm
      split at hm
      · exact Option.noConfusion hm
      · obtain rfl := Option.some.inj hm
        exact ⟨rfl, rfl⟩
    · split at hm
      · next pi hpi =>
        split at hm
        · next pid hpid =>
          split_ifs at hm with hr1
          · exact absurd hr1 (hno pi pid hpi hpid)
          · obtain rfl := Option.some.inj hm
            exact ⟨rfl, rfl⟩
        · obtain rfl := Option.some.inj hm
          exact ⟨rfl, rfl⟩
      · obtain rfl := Option.some.inj hm
        exact ⟨rfl, rfl⟩
  · intro b a hno
    unfold contrib_main_step
    split_ifs <;> exact ⟨rfl, rfl⟩

theorem classification_oracle_absent_witness :
    is_r1_institution envEmpty "missing-id" = none :=
  (classification_oracle_absent envEmpty "missing-id").1.mpr
    (Or.inr (Or.inl rfl))

/-! ## Claim C2 -/

/-- C2 (code bug): the unmapped-projects watermark is not monotonic.  The
membership test of the bookkeeping uses the lowercased project while the
initialisation and writes use the raw bucket key, so for the raw key "ProjX"
(which never equals its lowercase "projx") every sighting re-initialises the
entry to 0 and the stored value ends up being the latest sighting, not the
maximum: after sightings with last_seen 100 and then 50, the stored last_seen
is 50, where the claimed watermark behaviour requires 100. -/
theorem unmapped_project_watermark_overwritten :
    (get_monthly_docs envEmpty
        [projWindow [⟨"ProjX", 1, some 100⟩],
         projWindow [⟨"ProjX", 1, some 50⟩]]).map
      (fun r => r.2.2.unmapped_projects "ProjX") = some (some 50) ∧
    (50 : Int) ≠ 100 := by
  constructor
  · rfl
  · decide

/-! ## Claim C3 -/

/-- C3 counterexample: a projects bucket whose raw key is the literal
"UNKNOWN" sentinel, with doc_count 3, makes the per-window and TOTAL
`unmapped_projects` counters equal to 3 — the claim that an undefined key
never contributes to the unmapped counters is false on the code. -/
theorem undefined_key_increments_unmapped_counter :
    (get_monthly_docs envEmpty [projWindow [⟨"UNKNOWN", 3, some 7⟩]]).map
      (fun r => r.1.map (fun p => p.1.unmapped_projects)) =
      some [3] ∧ (3 : Nat) ≠ 0 := by
  constructor
  · rfl
  · decide

/-- C3 (amended): a bucket whose raw key is exactly the literal "UNKNOWN"
(the comparison is case-sensitive), with the reference tables holding no
entry for the key "unknown", is tracked as undefined separately from
unmapped: the users arm ignores it entirely; the projects arm only raises the
undefined-projects watermark and adds its doc_count to the window and TOTAL
`unmapped_projects` counters (never to `unmapped_institutions`, and never
touching the unmapped-record dicts or any entity set); the
contributing-institutions arm only raises the undefined-resources watermark. -/
theorem undefined_sentinel_tracking (env : Env) (b : Bucket) (a : WinAcc)
    (hk : b.key = "UNKNOWN")
    (hp : env.PROJECT_DATA "unknown" = none)
    (hr : env.RESOURCE_DATA "unknown" = none) :
    process_users_bucket b a = a ∧
    process_projects_bucket env b a = some { a with
      st := { a.st with
        undefined_projects_last_seen :=
          max a.st.undefined_projects_last_seen (bucketLastSeen b),
        tot_unmapped_projects := a.st.tot_unmapped_projects + b.doc_count },
      win_unmapped_projects := a.win_unmapped_projects + b.doc_count } ∧
    process_contrib_bucket env b a = { a with
      st := { a.st with
        undefined_resources_last_seen :=
          max a.st.undefined_resources_last_seen (bucketLastSeen b) } } := by
  obtain ⟨k, dc, ls⟩ := b
  simp only at hk
  subst hk
  have hlow : lower "UNKNOWN" = "unknown" := by decide
  refine ⟨?_, ?_, ?_⟩
  · show (if is_sentinel (resolve_user "UNKNOWN") then a
      else addBothUsers (resolve_user "UNKNOWN") a) = a
    rw [if_pos (by decide)]
  · unfold process_projects_bucket projects_benefit_step projects_mid_step
      projects_tail_step
    dsimp only
    rw [hlow, hp]
    rw [if_pos rfl]
    dsimp only [Option.map]
    rw [if_pos (show is_sentinel "unknown" by decide)]
  · unfold process_contrib_bucket contrib_tail_step contrib_main_step
      contrib_value
    dsimp only
    rw [if_neg (show ¬ containsSubstr "UNKNOWN" "osg-htc.org_" = true by decide)]
    rw [hlow, hr]
    dsimp only [Option.bind, Option.getD]
    rw [if_neg (show ¬ ("UNKNOWN" = "UNKNOWN" ∧ "UNKNOWN" ≠ "UNKNOWN") by simp)]
    rw [if_pos (show ("UNKNOWN" : String) = "UNKNOWN" from rfl)]
    rw [if_pos (show is_sentinel "UNKNOWN" by decide)]

theorem undefined_sentinel_tracking_witness :
    process_users_bucket ⟨"UNKNOWN", 2, some 9⟩
      ⟨emptyDatasets, initRunState, 0, 0⟩ =
      ⟨emptyDatasets, initRunState, 0, 0⟩ :=
  (undefined_sentinel_tracking envEmpty ⟨"UNKNOWN", 2, some 9⟩
    ⟨emptyDatasets, initRunState, 0, 0⟩ rfl rfl rfl).1

/-! ## Sentinel-freedom of the accumulated sets -/

theorem sf_insert_mem {s : Finset String} {v : String}
    (hv : ¬ is_sentinel v) (h : ∀ x ∈ s, ¬ is_sentinel x) :
    ∀ x ∈ insert v s, ¬ is_sentinel x := by
  intro x hx
  rcases Finset.mem_insert.mp hx with rfl | hx2
  · exact hv
  · exact h x hx2

theorem sf_addBothUsers (a : WinAcc) (v : String) (hv : ¬ is_sentinel v)
    (h : sentinel_free a.raw) : sentinel_free (addBothUsers v a).raw := by
  obtain ⟨h1, h2, h3, h4, h5, h6⟩ := h
  exact ⟨sf_insert_mem hv h1, h2, h3, h4, h5, h6⟩

theorem sf_addBothProjects (a : WinAcc) (v : String) (hv : ¬ is_sentinel v)
    (h : sentinel_free a.raw) : sentinel_free (addBothProjects v a).raw := by
  obtain ⟨h1, h2, h3, h4, h5, h6⟩ := h
  exact ⟨h1, sf_insert_mem hv h2, h3, h4, h5, h6⟩

theorem sf_addBothContrib (a : WinAcc) (v : String) (hv : ¬ is_sentinel v)
    (h : sentinel_free a.raw) : sentinel_free (addBothContrib v a).raw := by
  obtain ⟨h1, h2, h3, h4, h5, h6⟩ := h
  exact ⟨h1, h2, sf_insert_mem hv h3, h4, h5, h6⟩

theorem sf_addBothBenefit (a : WinAcc) (v : String) (hv : ¬ is_sentinel v)
    (h : sentinel_free a.raw) : sentinel_free (addBothBenefit v a).raw := by
  obtain ⟨h1, h2, h3, h4, h5, h6⟩ := h
  exact ⟨h1, h2, h3, sf_insert_mem hv h4, h5, h6⟩

theorem sf_addBothNonR1Contrib (a : WinAcc) (v : String) (hv : ¬ is_sentinel v)
    (h : sentinel_free a.raw) : sentinel_free (addBothNonR1Contrib v a).raw := by
  obtain ⟨h1, h2, h3, h4, h5, h6⟩ := h
  exact ⟨h1, h2, h3, h4, sf_insert_mem hv h5, h6⟩

theorem sf_addBothNonR1Benefit (a : WinAcc) (v : String) (hv : ¬ is_sentinel v)
    (h : sentinel_free a.raw) : sentinel_free (addBothNonR1Benefit v a).raw := by
  obtain ⟨h1, h2, h3, h4, h5, h6⟩ := h
  exact ⟨h1, h2, h3, h4, h5, sf_insert_mem hv h6⟩

theorem sf_users_bucket (b : Bucket) (a : WinAcc)
    (h : sentinel_free a.raw) : sentinel_free (process_users_bucket b a).raw := by
  show sentinel_free (if is_sentinel (resolve_user b.key) then a
    else addBothUsers (resolve_user b.key) a).raw
  split_ifs with hs
  · exact h
  · exact sf_addBothUsers a _ hs h

theorem sf_benefit_step (env : Env) (b : Bucket) (a : WinAcc)
    (hp : clean_project_table env)
    (h : sentinel_free a.raw) :
    sentinel_free (projects_benefit_step env b a).raw := by
  unfold projects_benefit_step
  cases hpi : env.PROJECT_DATA (lower b.key) with
  | none => exact h
  | some pi => exact sf_addBothBenefit a _ (hp _ pi hpi) h

theorem sf_mid_step (env : Env) (b : Bucket) (a1 a2 : WinAcc)
    (hp : clean_project_table env)
    (hm : projects_mid_step env b a1 = some a2)
    (h : sentinel_free a1.raw) : sentinel_free a2.raw := by
  unfold projects_mid_step at hm
  split_ifs at hm with h1 h2
  · obtain rfl := Option.some.inj hm
    exact h
  · dsimp only at hm
    split at hm
    · exact Option.noConfusion hm
    · obtain rfl := Option.some.inj hm
      exact h
  · split at hm
    · next pi hpi =>
      split at hm
      · next pid hpid =>
        split_ifs at hm
        · obtain rfl := Option.some.inj hm
          exact sf_addBothNonR1Benefit a1 _ (hp _ pi hpi) h
        · obtain rfl := Option.some.inj hm
          exact h
      · obtain rfl := Option.some.inj hm
        exact h
    · obtain rfl := Option.some.inj hm
      exact h

theorem sf_tail_step (b : Bucket) (a2 : WinAcc)
    (h : sentinel_free a2.raw) : sentinel_free (projects_tail_step b a2).raw := by
  unfold projects_tail_step
  split_ifs with hs
  · exact h
  · exact sf_addBothProjects a2 _ hs h

theorem sf_projects_bucket (env : Env) (b : Bucket) (a a2 : WinAcc)
    (hp : clean_project_table env)
    (hb : process_projects_bucket env b a = some a2)
    (h : sentinel_free a.raw) : sentinel_free a2.raw := by
  unfold process_projects_bucket at hb
  cases hm : projects_mid_step env b (projects_benefit_step env b a) with
  | none =>
    rw [hm] at hb
    exact Option.noConfusion hb
  | some amid =>
    rw [hm] at hb
    obtain rfl := Option.some.inj hb
    exact sf_tail_step b amid
      (sf_mid_step env b _ amid hp hm (sf_benefit_step env b a hp h))

theorem contrib_value_not_sentinel (env : Env) (key : String)
    (hr : clean_resource_table env) (hi : clean_institution_names env)
    (hne : contrib_value env key ≠ "UNKNOWN") :
    ¬ is_sentinel (contrib_value env key) := by
  unfold contrib_value at hne ⊢
  split_ifs at hne ⊢ with hsub
  · cases hdb : env.INSTITUTION_DB (splitLast key '_') with
    | none =>
      rw [hdb] at hne
      simp at hne
    | some rec =>
      rw [hdb] at hne
      simp only [Option.some_bind] at hne ⊢
      cases hnm : rec.name with
      | none =>
        rw [hnm] at hne
        simp at hne
      | some nm =>
        simp only [Option.getD_some]
        exact hi _ rec nm hdb hnm
  · cases hdb : env.RESOURCE_DATA (lower key) with
    | none =>
      rw [hdb] at hne
      simp at hne
    | some rec =>
      rw [hdb] at hne
      simp only [Option.some_bind] at hne ⊢
      cases hnm : rec.institution with
      | none =>
        rw [hnm] at hne
        simp at hne
      | some nm =>
        simp only [Option.getD_some]
        exact hr _ rec nm hdb hnm

theorem sf_contrib_main (env : Env) (b : Bucket) (a : WinAcc)
    (hr : clean_resource_table env) (hi : clean_institution_names env)
    (h : sentinel_free a.raw) : sentinel_free (contrib_main_step env b a).raw := by
  unfold contrib_main_step
  split_ifs with h1 h2 h3
  · exact h
  · exact h
  · refine sf_addBothNonR1Contrib a _ ?_ h
    refine contrib_value_not_sentinel env b.key hr hi ?_
    intro hu
    exact h1 ⟨hu, h2⟩
  · exact h

theorem sf_contrib_bucket (env : Env) (b : Bucket) (a : WinAcc)
    (hr : clean_resource_table env) (hi : clean_institution_names env)
    (h : sentinel_free a.raw) :
    sentinel_free (process_contrib_bucket env b a).raw := by
  unfold process_contrib_bucket contrib_tail_step
  split_ifs with hs
  · exact sf_contrib_main env b a hr hi h
  · exact sf_addBothContrib _ _ hs (sf_contrib_main env b a hr hi h)

theorem sf_users_list :
    ∀ (bs : List Bucket) (a : WinAcc), sentinel_free a.raw →
      sentinel_free (process_users_list bs a).raw := by
  intro bs
  induction bs with
  | nil => intro a h; exact h
  | cons b bs ih => intro a h; exact ih _ (sf_users_bucket b a h)

theorem sf_projects_list (env : Env) (hp : clean_project_table env) :
    ∀ (bs : List Bucket) (a a2 : WinAcc),
      process_projects_list env bs a = some a2 → sentinel_free a.raw →
        sentinel_free a2.raw := by
  intro bs
  induction bs with
  | nil =>
    intro a a2 h hs
    obtain rfl := Option.some.inj h
    exact hs
  | cons b bs ih =>
    intro a a2 h hs
    unfold process_projects_list at h
    split at h
    · exact Option.noConfusion h
    · next amid hb =>
      exact ih amid a2 h (sf_projects_bucket env b a amid hp hb hs)

theorem sf_contrib_list (env : Env) (hr : clean_resource_table env)
    (hi : clean_institution_names env) :
    ∀ (bs : List Bucket) (a : WinAcc), sentinel_free a.raw →
      sentinel_free (process_contrib_list env bs a).raw := by
  intro bs
  induction bs with
  | nil => intro a h; exact h
  | cons b bs ih => intro a h; exact ih _ (sf_contrib_bucket env b a hr hi h)

theorem sf_emptyDatasets : sentinel_free emptyDatasets := by
  refine ⟨?_, ?_, ?_, ?_, ?_, ?_⟩ <;> intro v hv <;> simp [emptyDatasets] at hv

theorem sf_process_window (env : Env) (st : RunState) (w : WindowData)
    (doc : MonthlyDoc) (raw : Datasets) (st1 : RunState)
    (hp : clean_project_table env) (hr : clean_resource_table env)
    (hi : clean_institution_names env)
    (h : process_window env st w = some (doc, raw, st1)) : sentinel_free raw := by
  unfold process_window at h
  dsimp only at h
  split at h
  · exact Option.noConfusion h
  · next a2 hpl =>
    simp only [Option.some_inj, Prod.mk.injEq] at h
    obtain ⟨_, hraw, _⟩ := h
    subst hraw
    exact sf_contrib_list env hr hi _ a2
      (sf_projects_list env hp _ _ a2 hpl (sf_users_list _ _ sf_emptyDatasets))

theorem sf_run_windows (env : Env) (hp : clean_project_table env)
    (hr : clean_resource_table env) (hi : clean_institution_names env) :
    ∀ (ws : List WindowData) (st : RunState)
      (docs : List (MonthlyDoc × Datasets)) (st2 : RunState),
      run_windows env ws st = some (docs, st2) →
      ∀ p ∈ docs, sentinel_free p.2 := by
  intro ws
  induction ws with
  | nil =>
    intro st docs st2 h p hpmem
    unfold run_windows at h
    simp only [Option.some_inj, Prod.mk.injEq] at h
    obtain ⟨hdocs, _⟩ := h
    subst hdocs
    simp at hpmem
  | cons w ws ih =>
    intro st docs st2 h p hpmem
    unfold run_windows at h
    split at h
    · exact Option.noConfusion h
    · next doc raw st1 hpw =>
      split at h
      · exact Option.noConfusion h
      · next rest stF hrw =>
        simp only [Option.some_inj, Prod.mk.injEq] at h
        obtain ⟨hdocs, _⟩ := h
        subst hdocs
        rcases List.mem_cons.mp hpmem with hp1 | hp2
        · subst hp1
          exact sf_process_window env st w doc raw st1 hp hr hi hpw
        · exact ih st1 rest stF hrw p hp2

theorem sf_unionDatasets :
    ∀ (l : List Datasets), (∀ d ∈ l, sentinel_free d) →
      sentinel_free (unionDatasets l) := by
  intro l
  induction l with
  | nil => intro _; exact sf_emptyDatasets
  | cons d ds ih =>
    intro h
    obtain ⟨h1, h2, h3, h4, h5, h6⟩ := h d (List.mem_cons_self d ds)
    obtain ⟨g1, g2, g3, g4, g5, g6⟩ :=
      ih fun x hx => h x (List.mem_cons_of_mem d hx)
    unfold unionDatasets
    refine ⟨?_, ?_, ?_, ?_, ?_, ?_⟩ <;>
      intro v hv <;>
      dsimp only at hv
    · rcases Finset.mem_union.mp hv with h' | h'
      · exact h1 v h'
      · exact g1 v h'
    · rcases Finset.mem_union.mp hv with h' | h'
      · exact h2 v h'
      · exact g2 v h'
    · rcases Finset.mem_union.mp hv with h' | h'
      · exact h3 v h'
      · exact g3 v h'
    · rcases Finset.mem_union.mp hv with h' | h'
      · exact h4 v h'
      · exact g4 v h'
    · rcases Finset.mem_union.mp hv with h' | h'
      · exact h5 v h'
      · exact g5 v h'
    · rcases Finset.mem_union.mp hv with h' | h'
      · exact h6 v h'
      · exact g6 v h'

/-! ## Claim C4 -/

/-- C4 counterexample: the engine accepts a project table that maps the
project "projy" to the institution name "UNKNOWN", and a single mapped
project bucket then makes the canonical sentinel "UNKNOWN" a member of the
run-total benefiting-institutions set (line 411 of the source inserts the
table-provided institution with no sentinel filter) — so the claim that no
sentinel value is ever a member of any accumulated entity set fails as
stated. -/
theorem sentinel_member_of_benefit_set :
    (get_monthly_docs envSentinelInstitution [projWindow [⟨"projY", 1, none⟩]]).map
      (fun r => decide ("UNKNOWN" ∈ r.2.2.tot.institutions_benefit)) =
      some true := by
  rfl

/-- C4 (amended): provided the reference tables are sentinel-clean — no
project record's institution, no resource record's institution and no
institution-database name case-folds to "" or "unknown" — no sentinel value
(canonical "UNKNOWN", or any value case-folding to "" or "unknown", which
covers every raw key folding to those) is ever a member of any per-window or
run-total entity set, and every unique-count field is the cardinality of one
of these sentinel-free sets. -/
theorem sentinel_exclusion (env : Env) (ws : List WindowData)
    (docs : List (MonthlyDoc × Datasets)) (td : TotalDoc) (st : RunState)
    (hp : clean_project_table env) (hr : clean_resource_table env)
    (hi : clean_institution_names env)
    (h : get_monthly_docs env ws = some (docs, td, st)) :
    (∀ p ∈ docs, sentinel_free p.2 ∧ DocOk p.1 p.2) ∧
    sentinel_free st.tot ∧
    td.users = st.tot.users.card ∧
    td.projects = st.tot.projects.card ∧
    td.institutions_contrib = st.tot.institutions_contrib.card ∧
    td.institutions_benefit = st.tot.institutions_benefit.card ∧
    td.non_r1_institutions_contrib = st.tot.non_r1_institutions_contrib.card ∧
    td.non_r1_institutions_benefit = st.tot.non_r1_institutions_benefit.card := by
  obtain ⟨hrun, htd⟩ := get_monthly_docs_spec env ws docs td st h
  obtain ⟨⟨h1, h2, h3, h4, h5, h6⟩, hdocs⟩ :=
    run_windows_spec env ws initRunState docs st hrun
  have hsf := sf_run_windows env hp hr hi ws initRunState docs st hrun
  have hU : sentinel_free (unionDatasets (docs.map Prod.snd)) := by
    refine sf_unionDatasets _ ?_
    intro d hd
    obtain ⟨p, hpmem, rfl⟩ := List.mem_map.mp hd
    exact hsf p hpmem
  obtain ⟨u1, u2, u3, u4, u5, u6⟩ := hU
  refine ⟨fun p hpm => ⟨hsf p hpm, hdocs p hpm⟩, ⟨?_, ?_, ?_, ?_, ?_, ?_⟩,
    ?_, ?_, ?_, ?_, ?_, ?_⟩
  · intro v hv
    rw [h1] at hv
    rcases Finset.mem_union.mp hv with hvm | hvm
    · simp [initRunState, emptyDatasets] at hvm
    · exact u1 v hvm
  · intro v hv
    rw [h2] at hv
    rcases Finset.mem_union.mp hv with hvm | hvm
    · simp [initRunState, emptyDatasets] at hvm
    · exact u2 v hvm
  · intro v hv
    rw [h3] at hv
    rcases Finset.mem_union.mp hv with hvm | hvm
    · simp [initRunState, emptyDatasets] at hvm
    · exact u3 v hvm
  · intro v hv
    rw [h4] at hv
    rcases Finset.mem_union.mp hv with hvm | hvm
    · simp [initRunState, emptyDatasets] at hvm
    · exact u4 v hvm
  · intro v hv
    rw [h5] at hv
    rcases Finset.mem_union.mp hv with hvm | hvm
    · simp [initRunState, emptyDatasets] at hvm
    · exact u5 v hvm
  · intro v hv
    rw [h6] at hv
    rcases Finset.mem_union.mp hv with hvm | hvm
    · simp [initRunState, emptyDatasets] at hvm
    · exact u6 v hvm
  · subst htd; rfl
  · subst htd; rfl
  · subst htd; rfl
  · subst htd; rfl
  · subst htd; rfl
  · subst htd; rfl

theorem sentinel_exclusion_witness : sentinel_free initRunState.tot :=
  (sentinel_exclusion envEmpty [] [] (finalize_total initRunState) initRunState
    (fun _ _ hx => Option.noConfusion hx)
    (fun _ _ _ hx => Option.noConfusion hx)
    (fun _ _ _ hx => Option.noConfusion hx) rfl).2.1

/-! ## The non-R1 subset invariant -/

theorem subsets_users_bucket (b : Bucket) (a : WinAcc)
    (hs : non_r1_subsets a.raw) :
    non_r1_subsets (process_users_bucket b a).raw := by
  show non_r1_subsets (if is_sentinel (resolve_user b.key) then a
    else addBothUsers (resolve_user b.key) a).raw
  split_ifs
  · exact hs
  · exact hs

theorem subsets_benefit_step (env : Env) (b : Bucket) (a : WinAcc)
    (hs : non_r1_subsets a.raw) :
    non_r1_subsets (projects_benefit_step env b a).raw := by
  unfold projects_benefit_step
  cases env.PROJECT_DATA (lower b.key) with
  | none => exact hs
  | some pi =>
    obtain ⟨hc, hbe⟩ := hs
    exact ⟨hc, hbe.trans (Finset.subset_insert _ _)⟩

theorem projects_mid_step_raw (env : Env) (b : Bucket) (a1 a2 : WinAcc)
    (hm : projects_mid_step env b a1 = some a2) :
    a2.raw = a1.raw ∨
    ∃ pi, env.PROJECT_DATA (lower b.key) = some pi ∧
      a2 = addBothNonR1Benefit pi.institution a1 := by
  unfold projects_mid_step at hm
  split_ifs at hm with h1 h2
  · obtain rfl := Option.some.inj hm
    exact Or.inl rfl
  · dsimp only at hm
    split at hm
    · exact Option.noConfusion hm
    · obtain rfl := Option.some.inj hm
      exact Or.inl rfl
  · split at hm
    · next pi hpi =>
      split at hm
      · next pid hpid =>
        split_ifs at hm
        · obtain rfl := Option.some.inj hm
          exact Or.inr ⟨pi, hpi, rfl⟩
        · obtain rfl := Option.some.inj hm
          exact Or.inl rfl
      · obtain rfl := Option.some.inj hm
        exact Or.inl rfl
    · obtain rfl := Option.some.inj hm
      exact Or.inl rfl

theorem subsets_tail_step (b : Bucket) (a2 : WinAcc)
    (hs : non_r1_subsets a2.raw) :
    non_r1_subsets (projects_tail_step b a2).raw := by
  unfold projects_tail_step
  split_ifs
  · exact hs
  · exact hs

theorem subsets_projects_bucket (env : Env) (b : Bucket) (a a2 : WinAcc)
    (hb : process_projects_bucket env b a = some a2)
    (hs : non_r1_subsets a.raw) : non_r1_subsets a2.raw := by
  unfold process_projects_bucket at hb
  cases hm : projects_mid_step env b (projects_benefit_step env b a) with
  | none =>
    rw [hm] at hb
    exact Option.noConfusion hb
  | some amid =>
    rw [hm] at hb
    obtain rfl := Option.some.inj hb
    refine subsets_tail_step b amid ?_
    have hbs := subsets_benefit_step env b a hs
    rcases projects_mid_step_raw env b _ amid hm with hraw | ⟨pi, hpi, rfl⟩
    · rw [non_r1_subsets, hraw]
      exact hbs
    · have hbe : projects_benefit_step env b a = addBothBenefit pi.institution a := by
        unfold projects_benefit_step
        rw [hpi]
      rw [hbe]
      obtain ⟨hc, hbe2⟩ := hs
      exact ⟨hc, Finset.insert_subset_insert _ hbe2⟩

theorem subsets_contrib_bucket (env : Env) (b : Bucket) (a : WinAcc)
    (hr : clean_resource_table env) (hi : clean_institution_names env)
    (hs : non_r1_subsets a.raw) :
    non_r1_subsets (process_contrib_bucket env b a).raw := by
  by_cases hsent : is_sentinel (contrib_value env b.key)
  · unfold process_contrib_bucket contrib_tail_step
    rw [if_pos hsent]
    unfold contrib_main_step
    split_ifs with h1 h2
    · exact hs
    · exact hs
    · exact absurd hsent
        (contrib_value_not_sentinel env b.key hr hi (fun hu => h1 ⟨hu, h2⟩))
    · exact hs
  · unfold process_contrib_bucket contrib_tail_step
    rw [if_neg hsent]
    unfold contrib_main_step
    split_ifs with h1 h2
    · exact ⟨hs.1.trans (Finset.subset_insert _ _), hs.2⟩
    · exact ⟨hs.1.trans (Finset.subset_insert _ _), hs.2⟩
    · exact ⟨Finset.insert_subset_insert _ hs.1, hs.2⟩
    · exact ⟨hs.1.trans (Finset.subset_insert _ _), hs.2⟩

theorem subsets_users_list :
    ∀ (bs : List Bucket) (a : WinAcc), non_r1_subsets a.raw →
      non_r1_subsets (process_users_list bs a).raw := by
  intro bs
  induction bs with
  | nil => intro a h; exact h
  | cons b bs ih => intro a h; exact ih _ (subsets_users_bucket b a h)

theorem subsets_projects_list (env : Env) :
    ∀ (bs : List Bucket) (a a2 : WinAcc),
      process_projects_list env bs a = some a2 → non_r1_subsets a.raw →
        non_r1_subsets a2.raw := by
  intro bs
  induction bs with
  | nil =>
    intro a a2 h hs
    obtain rfl := Option.some.inj h
    exact hs
  | cons b bs ih =>
    intro a a2 h hs
    unfold process_projects_list at h
    split at h
    · exact Option.noConfusion h
    · next amid hb =>
      exact ih amid a2 h (subsets_projects_bucket env b a amid hb hs)

theorem subsets_contrib_list (env : Env) (hr : clean_resource_table env)
    (hi : clean_institution_names env) :
    ∀ (bs : List Bucket) (a : WinAcc), non_r1_subsets a.raw →
      non_r1_subsets (process_contrib_list env bs a).raw := by
  intro bs
  induction bs with
  | nil => intro a h; exact h
  | cons b bs ih =>
    intro a h
    exact ih _ (subsets_contrib_bucket env b a hr hi h)

theorem subsets_emptyDatasets : non_r1_subsets emptyDatasets := by
  exact ⟨Finset.Subset.refl _, Finset.Subset.refl _⟩

theorem subsets_process_window (env : Env) (st : RunState) (w : WindowData)
    (doc : MonthlyDoc) (raw : Datasets) (st1 : RunState)
    (hr : clean_resource_table env) (hi : clean_institution_names env)
    (h : process_window env st w = some (doc, raw, st1)) :
    non_r1_subsets raw := by
  unfold process_window at h
  dsimp only at h
  split at h
  · exact Option.noConfusion h
  · next a2 hpl =>
    simp only [Option.some_inj, Prod.mk.injEq] at h
    obtain ⟨_, hraw, _⟩ := h
    subst hraw
    exact subsets_contrib_list env hr hi _ a2
      (subsets_projects_list env _ _ a2 hpl
        (subsets_users_list _ _ subsets_emptyDatasets))

theorem subsets_run_windows (env : Env) (hr : clean_resource_table env)
    (hi : clean_institution_names env) :
    ∀ (ws : List WindowData) (st : RunState)
      (docs : List (MonthlyDoc × Datasets)) (st2 : RunState),
      run_windows env ws st = some (docs, st2) →
      ∀ p ∈ docs, non_r1_subsets p.2 := by
  intro ws
  induction ws with
  | nil =>
    intro st docs st2 h p hpmem
    unfold run_windows at h
    simp only [Option.some_inj, Prod.mk.injEq] at h
    obtain ⟨hdocs, _⟩ := h
    subst hdocs
    simp at hpmem
  | cons w ws ih =>
    intro st docs st2 h p hpmem
    unfold run_windows at h
    split at h
    · exact Option.noConfusion h
    · next doc raw st1 hpw =>
      split at h
      · exact Option.noConfusion h
      · next rest stF hrw =>
        simp only [Option.some_inj, Prod.mk.injEq] at h
        obtain ⟨hdocs, _⟩ := h
        subst hdocs
        rcases List.mem_cons.mp hpmem with hp1 | hp2
        · subst hp1
          exact subsets_process_window env st w doc raw st1 hr hi hpw
        · exact ih st1 rest stF hrw p hp2

theorem subsets_unionDatasets :
    ∀ (l : List Datasets), (∀ d ∈ l, non_r1_subsets d) →
      non_r1_subsets (unionDatasets l) := by
  intro l
  induction l with
  | nil => intro _; exact subsets_emptyDatasets
  | cons d ds ih =>
    intro h
    obtain ⟨h1, h2⟩ := h d (List.mem_cons_self d ds)
    obtain ⟨g1, g2⟩ := ih fun x hx => h x (List.mem_cons_of_mem d hx)
    exact ⟨Finset.union_subset_union h1 g1, Finset.union_subset_union h2 g2⟩

theorem fraction_le_one (n d : Nat) (h : n ≤ d) :
    fraction (n : ℚ) (d : ℚ) ≤ 1 := by
  unfold fraction
  rw [div_le_one (lt_of_lt_of_le zero_lt_one (le_max_right _ _))]
  exact le_trans (by exact_mod_cast h) (le_max_left _ _)

/-! ## Claim C10 -/

/-- C10 counterexample: the engine accepts a resource table mapping "sitex"
to the institution name "Unknown" (mixed case) with an id whose Carnegie
classification is present and not R1.  The oracle answers False, so the name
is inserted into the non-R1 contributing sets before the sentinel filter,
while the filter then keeps it out of the contributing sets — the run-total
non-R1 contributing set is not a subset of the contributing set, so the
claim fails as stated. -/
theorem non_r1_not_subset :
    (get_monthly_docs envMixedCaseInstitution
        [resWindow [⟨"SiteX", 5, some 3⟩]]).map
      (fun r => decide (r.2.2.tot.non_r1_institutions_contrib ⊆
        r.2.2.tot.institutions_contrib)) = some false := by
  rfl

/-- C10 (amended): provided the resource-table institution names and the
institution-database names are sentinel-clean (none case-folds to "" or
"unknown"), the non-R1 institution sets are subsets of the corresponding
full institution sets in every window and in the run total, every non-R1
count is at most the corresponding institutions count, and the derived
non-R1 percentage never exceeds 1. -/
theorem non_r1_subset_property (env : Env) (ws : List WindowData)
    (docs : List (MonthlyDoc × Datasets)) (td : TotalDoc) (st : RunState)
    (hr : clean_resource_table env) (hi : clean_institution_names env)
    (h : get_monthly_docs env ws = some (docs, td, st)) :
    (∀ p ∈ docs,
      p.2.non_r1_institutions_contrib ⊆ p.2.institutions_contrib ∧
      p.2.non_r1_institutions_benefit ⊆ p.2.institutions_benefit ∧
      p.1.non_r1_institutions_contrib ≤ p.1.institutions_contrib ∧
      p.1.non_r1_institutions_benefit ≤ p.1.institutions_benefit ∧
      p.1.pct_institutions_union_non_r1 ≤ 1) ∧
    st.tot.non_r1_institutions_contrib ⊆ st.tot.institutions_contrib ∧
    st.tot.non_r1_institutions_benefit ⊆ st.tot.institutions_benefit ∧
    td.non_r1_institutions_contrib ≤ td.institutions_contrib ∧
    td.non_r1_institutions_benefit ≤ td.institutions_benefit ∧
    td.pct_institutions_union_non_r1 ≤ 1 := by
  obtain ⟨hrun, htd⟩ := get_monthly_docs_spec env ws docs td st h
  obtain ⟨⟨h1, h2, h3, h4, h5, h6⟩, hdocs⟩ :=
    run_windows_spec env ws initRunState docs st hrun
  have hsub := subsets_run_windows env hr hi ws initRunState docs st hrun
  have hUsub : non_r1_subsets (unionDatasets (docs.map Prod.snd)) := by
    refine subsets_unionDatasets _ ?_
    intro d hd
    obtain ⟨p, hpmem, rfl⟩ := List.mem_map.mp hd
    exact hsub p hpmem
  have e3 : st.tot.institutions_contrib =
      (unionDatasets (docs.map Prod.snd)).institutions_contrib := by
    rw [h3]
    exact Finset.empty_union _
  have e4 : st.tot.institutions_benefit =
      (unionDatasets (docs.map Prod.snd)).institutions_benefit := by
    rw [h4]
    exact Finset.empty_union _
  have e5 : st.tot.non_r1_institutions_contrib =
      (unionDatasets (docs.map Prod.snd)).non_r1_institutions_contrib := by
    rw [h5]
    exact Finset.empty_union _
  have e6 : st.tot.non_r1_institutions_benefit =
      (unionDatasets (docs.map Prod.snd)).non_r1_institutions_benefit := by
    rw [h6]
    exact Finset.empty_union _
  have hcsub : st.tot.non_r1_institutions_contrib ⊆
      st.tot.institutions_contrib := by
    rw [e5, e3]
    exact hUsub.1
  have hbsub : st.tot.non_r1_institutions_benefit ⊆
      st.tot.institutions_benefit := by
    rw [e6, e4]
    exact hUsub.2
  subst htd
  refine ⟨?_, hcsub, hbsub, ?_, ?_, ?_⟩
  · intro p hpm
    obtain ⟨hs1, hs2⟩ := hsub p hpm
    obtain ⟨d1, d2, d3, d4, d5, d6, d7, d8, d9, d10, d11, d12, d13⟩ :=
      hdocs p hpm
    refine ⟨hs1, hs2, ?_, ?_, ?_⟩
    · rw [d5, d3]
      exact Finset.card_le_card hs1
    · rw [d6, d4]
      exact Finset.card_le_card hs2
    · rw [d12, d10, d9]
      exact fraction_le_one _ _
        (Finset.card_le_card (Finset.union_subset_union hs1 hs2))
  · exact Finset.card_le_card hcsub
  · exact Finset.card_le_card hbsub
  · show fraction
        ((st.tot.non_r1_institutions_contrib ∪
          st.tot.non_r1_institutions_benefit).card : ℚ)
        ((st.tot.institutions_contrib ∪ st.tot.institutions_benefit).card : ℚ)
        ≤ 1
    exact fraction_le_one _ _
      (Finset.card_le_card (Finset.union_subset_union hcsub hbsub))

theorem non_r1_subset_property_witness :
    (finalize_total initRunState).pct_institutions_union_non_r1 ≤ 1 :=
  (non_r1_subset_property envEmpty [] [] (finalize_total initRunState)
    initRunState (fun _ _ _ hx => Option.noConfusion hx)
    (fun _ _ _ hx => Option.noConfusion hx) rfl).2.2.2.2.2

theorem windows_contiguous_descending_span_witness :
    get_timestamps ⟨2024, 3, 31⟩ 365 ≠ [] :=
  (windows_contiguous_descending_span ⟨2024, 3, 31⟩ 365 (by decide) (by decide)
    (by decide) (by decide) (by decide) (by decide)).2.2.2.1
